import Mathlib

/-!
# WalkWise shopping cart (`src/js/cart.js`)

A shallow embedding of the `Cart` class of `src/js/cart.js` and the properties
of it that the specification states.

Modelling conventions.

* JavaScript numbers are IEEE 754 doubles.  `JSNumber` has `NaN`, the two
  infinities and the finite values (as exact rationals); every arithmetic
  operation computes the exact result and rounds it to the nearest double, ties
  to even (`roundToDouble`).  The sign of zero is not kept: nothing in the class
  divides by a number or prints a zero with its sign.
* A line item is the object literal built in `addToCart`: `id`, `name`,
  `price`, `image`, `quantity`.  `id` is a reading of `Date.now()` (an integer
  number of milliseconds); `price` and `quantity` are numbers.
* `this.items` is a `List Item`; the in-place mutation of the object returned by
  `Array.prototype.find` is the rewrite of the first element that satisfies the
  predicate (`updateFirst`).
* The page the class talks to is explicit state: the `data-count` attribute of
  the cart icon, the cart panel (`.cart-container`, absent until the first
  `toggleCart`), the notification nodes appended to the body, and the value last
  handed to `localStorage.setItem('cart', JSON.stringify(..))`.
* Texts produced from numbers (`toFixed(2)`, template interpolation, the
  attribute value) are kept as the number they are produced from.
* `Date.now()` is an argument of `addToCart`.
-/

namespace WalkWise

/-! ## Numbers -/

/-- A JavaScript number: `NaN`, `Infinity`, `-Infinity`, or a finite value. -/
inductive JSNumber where
  | nan
  | posInf
  | negInf
  | fin (value : ℚ)
  deriving DecidableEq

/-- The integer nearest to `q`, the even one when `q` is half-way between two
integers. -/
def roundHalfEven (q : ℚ) : ℤ :=
  let f := Int.floor q
  let r := q - f
  if r < 1 / 2 then f
  else if 1 / 2 < r then f + 1
  else if f % 2 = 0 then f else f + 1

/-- Halve `n` until it is below 2, counting the steps (at most `fuel`). -/
def log2Aux : Nat → Nat → Nat
  | 0, _ => 0
  | fuel + 1, n => if n < 2 then 0 else log2Aux fuel (n / 2) + 1

/-- The position of the leading bit of `n`: the `k` with `2 ^ k ≤ n < 2 ^ (k + 1)`,
for `n ≥ 1`. -/
def natLog2 (n : Nat) : Nat := log2Aux n n

/-- The binary exponent of a positive rational: the `e` with
`2 ^ e ≤ x < 2 ^ (e + 1)`. -/
def ilog2 (x : ℚ) : ℤ :=
  let e0 : ℤ := (natLog2 x.num.natAbs : ℤ) - (natLog2 x.den : ℤ)
  if (2 : ℚ) ^ e0 ≤ x then e0 else e0 - 1

/-- Round an exact value to the nearest double (binary64, round to nearest,
ties to even): a 53-bit significand, the spacing of the subnormal range below
`2 ^ (-1022)`, and `Infinity` once the rounded magnitude reaches `2 ^ 1024`. -/
def roundToDouble (x : ℚ) : JSNumber :=
  if x = 0 then JSNumber.fin 0
  else
    let a := |x|
    let p := max (ilog2 a) (-1022) - 52
    let y := (roundHalfEven (a / (2 : ℚ) ^ p) : ℚ) * (2 : ℚ) ^ p
    if (2 : ℚ) ^ (1024 : ℤ) ≤ y then (if x < 0 then JSNumber.negInf else JSNumber.posInf)
    else JSNumber.fin (if x < 0 then -y else y)

/-- The number an integer literal or integer argument denotes. -/
def JSNumber.ofInt (n : Int) : JSNumber :=
  roundToDouble (n : ℚ)

/-- The operator `+` on two numbers. -/
def JSNumber.add : JSNumber → JSNumber → JSNumber
  | JSNumber.nan, _ => JSNumber.nan
  | _, JSNumber.nan => JSNumber.nan
  | JSNumber.posInf, JSNumber.negInf => JSNumber.nan
  | JSNumber.negInf, JSNumber.posInf => JSNumber.nan
  | JSNumber.posInf, _ => JSNumber.posInf
  | _, JSNumber.posInf => JSNumber.posInf
  | JSNumber.negInf, _ => JSNumber.negInf
  | _, JSNumber.negInf => JSNumber.negInf
  | JSNumber.fin a, JSNumber.fin b => roundToDouble (a + b)

/-- The product of an infinity (negative when `negative`) with a finite value. -/
def infTimes (negative : Bool) (b : ℚ) : JSNumber :=
  if b = 0 then JSNumber.nan
  else if 0 < b then (if negative then JSNumber.negInf else JSNumber.posInf)
  else (if negative then JSNumber.posInf else JSNumber.negInf)

/-- The operator `*` on two numbers. -/
def JSNumber.mul : JSNumber → JSNumber → JSNumber
  | JSNumber.nan, _ => JSNumber.nan
  | _, JSNumber.nan => JSNumber.nan
  | JSNumber.posInf, JSNumber.posInf => JSNumber.posInf
  | JSNumber.negInf, JSNumber.negInf => JSNumber.posInf
  | JSNumber.posInf, JSNumber.negInf => JSNumber.negInf
  | JSNumber.negInf, JSNumber.posInf => JSNumber.negInf
  | JSNumber.posInf, JSNumber.fin b => infTimes false b
  | JSNumber.negInf, JSNumber.fin b => infTimes true b
  | JSNumber.fin a, JSNumber.posInf => infTimes false a
  | JSNumber.fin a, JSNumber.negInf => infTimes true a
  | JSNumber.fin a, JSNumber.fin b => roundToDouble (a * b)

/-- `Math.max` on two numbers: `NaN` if either is `NaN`, else the larger. -/
def Math_max : JSNumber → JSNumber → JSNumber
  | JSNumber.nan, _ => JSNumber.nan
  | _, JSNumber.nan => JSNumber.nan
  | JSNumber.posInf, _ => JSNumber.posInf
  | _, JSNumber.posInf => JSNumber.posInf
  | JSNumber.negInf, b => b
  | a, JSNumber.negInf => a
  | JSNumber.fin a, JSNumber.fin b => JSNumber.fin (max a b)

/-- The comparison `a < b` (so `b > a`): false whenever an operand is `NaN`. -/
def JSNumber.lt : JSNumber → JSNumber → Bool
  | JSNumber.nan, _ => false
  | _, JSNumber.nan => false
  | JSNumber.posInf, _ => false
  | _, JSNumber.negInf => false
  | JSNumber.negInf, _ => true
  | _, JSNumber.posInf => true
  | JSNumber.fin a, JSNumber.fin b => decide (a < b)

/-- The comparison `a <= b` (so `b >= a`): false whenever an operand is `NaN`. -/
def JSNumber.le : JSNumber → JSNumber → Bool
  | JSNumber.nan, _ => false
  | _, JSNumber.nan => false
  | JSNumber.negInf, _ => true
  | _, JSNumber.posInf => true
  | JSNumber.posInf, _ => false
  | _, JSNumber.negInf => false
  | JSNumber.fin a, JSNumber.fin b => decide (a ≤ b)

/-! ## Data model -/

/-- One line item of the cart: the object literal of `addToCart` (lines 30-36). -/
structure Item where
  id : Int
  name : String
  price : JSNumber
  image : String
  quantity : JSNumber
  deriving DecidableEq

/-- What `addToCart` reads from the product card: the text of `.heading-three`,
the number `parseFloat` returns for the text of `.shoe-price` without its `$`
(`NaN` when the text is not a number), and the `src` of the `img`. -/
structure ProductCard where
  name : String
  price : JSNumber
  image : String
  deriving DecidableEq

/-- One rendered `.cart-item` row of the panel: the values interpolated into
the template of `updateCartDisplay` (lines 169-183). -/
structure Row where
  dataId : Int
  imgSrc : String
  imgAlt : String
  heading : String
  price : JSNumber
  quantity : JSNumber
  deriving DecidableEq

/-- Contents of the `.cart-items` element. -/
inductive PanelBody where
  | emptyMessage
  | rows (rs : List Row)
  deriving DecidableEq

/-- The text of `.cart-total span`: a fixed text, or `x.toFixed(2)` for the
number `x`. -/
inductive TotalText where
  | literal (text : String)
  | toFixed2 (x : JSNumber)
  deriving DecidableEq

/-- The `.cart-container` element: its `active` class, the `.cart-items`
contents and the text of `.cart-total span`. -/
structure Panel where
  active : Bool
  body : PanelBody
  totalText : TotalText
  deriving DecidableEq

/-- The `Cart` object together with the part of the page it reads and writes. -/
structure Cart where
  /-- The field `this.items`. -/
  items : List Item
  /-- The field `this.total` (set to 0 by the constructor, never written again). -/
  total : JSNumber
  /-- The value last serialised into the `cart` slot by `saveCart`, if any. -/
  saved : Option (List Item)
  /-- The `data-count` attribute of the cart icon, if present: the number whose
  text it holds. -/
  dataCount : Option JSNumber
  /-- The cart panel, once `createCartContainer` has appended it. -/
  container : Option Panel
  /-- The texts of the notification nodes appended so far. -/
  notifications : List String
  deriving DecidableEq

/-! ## Array helpers -/

/-- Rewrite the first element satisfying `p` with `f`: the effect on the array
of mutating the object that `find(p)` returned. -/
def updateFirst (p : Item → Bool) (f : Item → Item) : List Item → List Item
  | [] => []
  | x :: xs => if p x then f x :: xs else x :: updateFirst p f xs

/-! ## Pure computations -/

/-- `calculateTotal` (lines 77-79). -/
def calculateTotal (items : List Item) : JSNumber :=
  items.foldl (fun total item => total.add (item.price.mul item.quantity)) (JSNumber.fin 0)

/-- The `cartCount` of `updateCartIcon` (line 82). -/
def cartCount (items : List Item) : JSNumber :=
  items.foldl (fun total item => total.add item.quantity) (JSNumber.fin 0)

/-- The attribute `updateCartIcon` leaves on the icon (lines 84-88). -/
def badgeOf (items : List Item) : Option JSNumber :=
  if (JSNumber.fin 0).lt (cartCount items) then some (cartCount items) else none

/-- The row rendered for one item (lines 170-182). -/
def renderRow (item : Item) : Row :=
  { dataId := item.id, imgSrc := item.image, imgAlt := item.name,
    heading := item.name, price := item.price, quantity := item.quantity }

/-- What `updateCartDisplay` writes into an existing panel (lines 163-205):
the contents of `.cart-items` and the text of the total. -/
def renderPanel (items : List Item) : PanelBody × TotalText :=
  if items.length = 0 then (PanelBody.emptyMessage, TotalText.literal "0.00")
  else (PanelBody.rows (items.map renderRow), TotalText.toFixed2 (calculateTotal items))

namespace Cart

/-! ## Methods of the class -/

/-- `saveCart` (lines 91-93). -/
def saveCart (c : Cart) : Cart :=
  { c with saved := some c.items }

/-- `updateCartIcon` (lines 81-89). -/
def updateCartIcon (c : Cart) : Cart :=
  let cartCount := WalkWise.cartCount c.items
  if (JSNumber.fin 0).lt cartCount then { c with dataCount := some cartCount }
  else { c with dataCount := none }

/-- `showNotification` (lines 95-104); the removal after three seconds is a
timer and is not part of the state. -/
def showNotification (message : String) (c : Cart) : Cart :=
  { c with notifications := c.notifications ++ [message] }

/-- `updateCartDisplay` (lines 157-206). -/
def updateCartDisplay (c : Cart) : Cart :=
  match c.container with
  | none => c
  | some p =>
    if c.items.length = 0 then
      { c with container := some { p with
          body := PanelBody.emptyMessage, totalText := TotalText.literal "0.00" } }
    else
      { c with container := some { p with
          body := PanelBody.rows (c.items.map renderRow),
          totalText := TotalText.toFixed2 (calculateTotal c.items) } }

/-- `addToCart` (lines 29-49); `now` is the reading of `Date.now()`. -/
def addToCart (now : Int) (productCard : ProductCard) (c : Cart) : Cart :=
  let product : Item :=
    { id := now, name := productCard.name, price := productCard.price,
      image := productCard.image, quantity := JSNumber.fin 1 }
  let existingItem := c.items.find? (fun item => item.name == product.name)
  let c1 : Cart :=
    match existingItem with
    | some _ =>
      let items1 := updateFirst (fun item => item.name == product.name)
        (fun item => { item with quantity := item.quantity.add (JSNumber.fin 1) }) c.items
      { c with items := items1 }
    | none => { c with items := c.items ++ [product] }
  showNotification "Product added to cart!" (updateCartIcon (saveCart c1))

/-- `removeFromCart` (lines 51-57). -/
def removeFromCart (productId : Int) (c : Cart) : Cart :=
  let c1 : Cart := { c with items := c.items.filter (fun item => item.id != productId) }
  showNotification "Product removed from cart!"
    (updateCartDisplay (updateCartIcon (saveCart c1)))

/-- `clearCart` (lines 59-65). -/
def clearCart (c : Cart) : Cart :=
  let c1 : Cart := { c with items := [] }
  showNotification "Cart cleared!" (updateCartDisplay (updateCartIcon (saveCart c1)))

/-- `updateQuantity` (lines 67-75). -/
def updateQuantity (productId : Int) (newQuantity : JSNumber) (c : Cart) : Cart :=
  match c.items.find? (fun item => item.id == productId) with
  | some _ =>
    let items1 := updateFirst (fun item => item.id == productId)
      (fun item => { item with quantity := Math_max (JSNumber.fin 1) newQuantity }) c.items
    let c1 : Cart := { c with items := items1 }
    updateCartDisplay (updateCartIcon (saveCart c1))
  | none => c

/-- `createCartContainer` (lines 117-155): the panel as first appended. -/
def createCartContainer : Panel :=
  { active := false, body := PanelBody.rows [], totalText := TotalText.literal "0" }

/-- `toggleCart` (lines 106-115). -/
def toggleCart (c : Cart) : Cart :=
  let cartContainer : Panel :=
    match c.container with
    | some p => p
    | none => createCartContainer
  updateCartDisplay
    { c with container := some { cartContainer with active := !cartContainer.active } }

/-- The click handler of a `.quantity-btn` (lines 187-195). -/
def quantityBtnClick (itemId : Int) (isPlus : Bool) (c : Cart) : Cart :=
  match c.items.find? (fun item => item.id == itemId) with
  | some item =>
    updateQuantity itemId (item.quantity.add (JSNumber.fin (if isPlus then 1 else -1))) c
  | none => c

/-- The click handler of a `.remove-item` button (lines 199-202). -/
def removeItemClick (itemId : Int) (c : Cart) : Cart :=
  removeFromCart itemId c

/-- The click handler of `.close-cart` (lines 136-138). -/
def closeCartClick (c : Cart) : Cart :=
  { c with container := c.container.map (fun p => { p with active := false }) }

/-- The click handler of `.checkout-btn` (lines 146-152); the `alert` is not
part of the state. -/
def checkoutClick (c : Cart) : Cart :=
  if c.items.length > 0 then closeCartClick (clearCart c) else c

/-- The state right after the constructor ran `init` on a well-formed item
sequence: the icon badge set by `updateCartIcon`, no panel, nothing saved. -/
def ofItems (items : List Item) : Cart :=
  updateCartIcon
    { items := items, total := JSNumber.fin 0, saved := none, dataCount := none,
      container := none, notifications := [] }

end Cart

/-! ## Sequences of operations -/

/-- The four operations that change `this.items`.  The argument of
`updateQuantity` is an integer. -/
inductive Op where
  | addToCart (now : Int) (productCard : ProductCard)
  | removeFromCart (productId : Int)
  | updateQuantity (productId : Int) (newQuantity : Int)
  | clearCart
  deriving DecidableEq

/-- Run one operation. -/
def Op.apply : Op → Cart → Cart
  | Op.addToCart now productCard, c => c.addToCart now productCard
  | Op.removeFromCart productId, c => c.removeFromCart productId
  | Op.updateQuantity productId newQuantity, c =>
    c.updateQuantity productId (JSNumber.ofInt newQuantity)
  | Op.clearCart, c => c.clearCart

/-- Run a sequence of operations, first to last. -/
def run (ops : List Op) (c : Cart) : Cart :=
  ops.foldl (fun c op => op.apply c) c

/-- The cart of a page load with nothing persisted. -/
def emptyCart : Cart := Cart.ofItems []

/-- No two line items have the same name. -/
def NamesDistinct (items : List Item) : Prop :=
  (items.map (fun item => item.name)).Nodup

/-- No two line items have the same id. -/
def IdsDistinct (items : List Item) : Prop :=
  (items.map (fun item => item.id)).Nodup

/-- Every line item has quantity at least 1 (`quantity >= 1` holds). -/
def QuantitiesPositive (items : List Item) : Prop :=
  ∀ item ∈ items, (JSNumber.fin 1).le item.quantity = true

/-- The line item `addToCart` pushes for a card read at clock reading `now`. -/
def newItem (now : Int) (productCard : ProductCard) : Item :=
  { id := now, name := productCard.name, price := productCard.price,
    image := productCard.image, quantity := JSNumber.fin 1 }

/-- The `Date.now()` readings of the adds of a sequence of operations, in call
order. -/
def addReadings : List Op → List Int
  | [] => []
  | Op.addToCart now _ :: ops => now :: addReadings ops
  | _ :: ops => addReadings ops

/-- A product card used in the concrete scenarios below. -/
def runnerCard : ProductCard :=
  { name := "Runner", price := JSNumber.fin 30, image := "r.png" }

/-- A second product card, with a different name. -/
def bootCard : ProductCard :=
  { name := "Boot", price := JSNumber.fin 45, image := "b.png" }

/-- The icon shows the badge derived from the items. -/
def BadgeFresh (c : Cart) : Prop :=
  c.dataCount = badgeOf c.items

/-- If the panel exists, it shows the rendering of the items. -/
def PanelFresh (c : Cart) : Prop :=
  ∀ p, c.container = some p → (p.body, p.totalText) = renderPanel c.items

/-! ## Loading the persisted cart (constructor, lines 3-7)

`localStorage.getItem('cart')` is `none` for a missing slot.  `JSON.parse` is a
platform function: the constructor takes it as the argument `parse`, and
`JSON_parse` below is the JSON grammar, used where a concrete text is
evaluated.  The icon element `.fa-cart-shopping` is taken to exist (the page
has exactly one), so `querySelector` does not return `null` in `init`. -/

/-- Values that `JSON.parse` can return.  A number is kept as written, `num m e`
for the decimal `m * 10 ^ e`; `JSValue.numberValue` is the double it denotes. -/
inductive JSValue where
  | null
  | bool (b : Bool)
  | num (mantissa : Int) (exponent : Int)
  | str (s : String)
  | arr (xs : List JSValue)
  | obj (members : List (String × JSValue))

/-- The exceptions the constructor can raise. -/
inductive JSError where
  | SyntaxError
  | TypeError
  deriving DecidableEq

/-- Skip JSON whitespace (space, tab, line feed, carriage return). -/
def skipWs : List Char → List Char
  | [] => []
  | c :: cs => if c == ' ' || c == '\t' || c == '\n' || c == '\r' then skipWs cs else c :: cs

/-- The longest prefix of decimal digits, and what follows it. -/
def takeDigits : List Char → List Char × List Char
  | [] => ([], [])
  | c :: cs =>
    if c.isDigit then ((takeDigits cs).1.cons c, (takeDigits cs).2) else ([], c :: cs)

/-- The value of a string of decimal digits. -/
def digitsToNat (ds : List Char) : Nat :=
  ds.foldl (fun n c => 10 * n + (c.toNat - '0'.toNat)) 0

/-- The integer part of a JSON number: `0`, or a non-empty digit string that
does not start with `0`. -/
def parseInt (cs : List Char) : Option (Nat × List Char) :=
  match cs with
  | [] => none
  | c :: rest =>
    if c == '0' then some (0, rest)
    else if c.isDigit then some (digitsToNat (takeDigits cs).1, (takeDigits cs).2)
    else none

/-- The optional fraction: the value of the digits and how many there are. -/
def parseFrac (cs : List Char) : Option (Nat × Nat × List Char) :=
  match cs with
  | '.' :: rest =>
    match takeDigits rest with
    | ([], _) => none
    | (ds, rest2) => some (digitsToNat ds, ds.length, rest2)
  | _ => some (0, 0, cs)

/-- The optional exponent. -/
def parseExp (cs : List Char) : Option (Int × List Char) :=
  match cs with
  | c :: rest =>
    if c == 'e' || c == 'E' then
      match rest with
      | '-' :: r =>
        match takeDigits r with
        | ([], _) => none
        | (ds, r2) => some (-(digitsToNat ds : Int), r2)
      | '+' :: r =>
        match takeDigits r with
        | ([], _) => none
        | (ds, r2) => some ((digitsToNat ds : Int), r2)
      | r =>
        match takeDigits r with
        | ([], _) => none
        | (ds, r2) => some ((digitsToNat ds : Int), r2)
    else some (0, cs)
  | [] => some (0, [])

/-- A JSON number without its sign, as mantissa and decimal exponent. -/
def parseUnsigned (cs : List Char) : Option ((Int × Int) × List Char) :=
  match parseInt cs with
  | none => none
  | some (i, r1) =>
    match parseFrac r1 with
    | none => none
    | some (f, k, r2) =>
      match parseExp r2 with
      | none => none
      | some (e, r3) => some ((((i * 10 ^ k + f : Nat) : Int), e - (k : Int)), r3)

/-- A JSON number: an optional minus sign, then integer part, fraction and
exponent. -/
def parseNumber (cs : List Char) : Option ((Int × Int) × List Char) :=
  match cs with
  | '-' :: rest => (parseUnsigned rest).map (fun r => ((-r.1.1, r.1.2), r.2))
  | _ => parseUnsigned cs

/-- The value of a hexadecimal digit. -/
def hexVal (c : Char) : Option Nat :=
  if c.isDigit then some (c.toNat - '0'.toNat)
  else if 'a'.toNat ≤ c.toNat ∧ c.toNat ≤ 'f'.toNat then some (c.toNat - 'a'.toNat + 10)
  else if 'A'.toNat ≤ c.toNat ∧ c.toNat ≤ 'F'.toNat then some (c.toNat - 'A'.toNat + 10)
  else none

/-- The characters of a string literal after its opening quote. -/
def parseChars : List Char → List Char → Option (String × List Char)
  | _, [] => none
  | acc, c :: cs =>
    if c == '"' then some (String.mk acc.reverse, cs)
    else if c == '\\' then
      match cs with
      | [] => none
      | e :: rest =>
        if e == '"' then parseChars ('"' :: acc) rest
        else if e == '\\' then parseChars ('\\' :: acc) rest
        else if e == '/' then parseChars ('/' :: acc) rest
        else if e == 'b' then parseChars (Char.ofNat 8 :: acc) rest
        else if e == 'f' then parseChars (Char.ofNat 12 :: acc) rest
        else if e == 'n' then parseChars ('\n' :: acc) rest
        else if e == 'r' then parseChars ('\r' :: acc) rest
        else if e == 't' then parseChars ('\t' :: acc) rest
        else if e == 'u' then
          match rest with
          | a :: b :: c2 :: d :: rest2 =>
            match hexVal a, hexVal b, hexVal c2, hexVal d with
            | some x, some y, some z, some w =>
              parseChars (Char.ofNat (((x * 16 + y) * 16 + z) * 16 + w) :: acc) rest2
            | _, _, _, _ => none
          | _ => none
        else none
    else if c.toNat < 32 then none
    else parseChars (c :: acc) cs

mutual
/-- A JSON value at the head of the input, with the input left after it.  The
first argument bounds the number of nested calls. -/
def parseValue : Nat → List Char → Option (JSValue × List Char)
  | 0, _ => none
  | fuel + 1, cs =>
    match skipWs cs with
    | 'n' :: 'u' :: 'l' :: 'l' :: rest => some (JSValue.null, rest)
    | 't' :: 'r' :: 'u' :: 'e' :: rest => some (JSValue.bool true, rest)
    | 'f' :: 'a' :: 'l' :: 's' :: 'e' :: rest => some (JSValue.bool false, rest)
    | '"' :: rest => (parseChars [] rest).map (fun r => (JSValue.str r.1, r.2))
    | '[' :: rest =>
      match skipWs rest with
      | ']' :: r => some (JSValue.arr [], r)
      | r => parseElements fuel r []
    | '{' :: rest =>
      match skipWs rest with
      | '}' :: r => some (JSValue.obj [], r)
      | r => parseMembers fuel r []
    | other => (parseNumber other).map (fun r => (JSValue.num r.1.1 r.1.2, r.2))
/-- The elements of an array after its opening bracket (`acc` holds the
elements read so far, last first). -/
def parseElements : Nat → List Char → List JSValue → Option (JSValue × List Char)
  | 0, _, _ => none
  | fuel + 1, cs, acc =>
    match parseValue fuel cs with
    | none => none
    | some (v, rest) =>
      match skipWs rest with
      | ',' :: r => parseElements fuel r (v :: acc)
      | ']' :: r => some (JSValue.arr (v :: acc).reverse, r)
      | _ => none
/-- The members of an object after its opening brace. -/
def parseMembers : Nat → List Char → List (String × JSValue) → Option (JSValue × List Char)
  | 0, _, _ => none
  | fuel + 1, cs, acc =>
    match skipWs cs with
    | '"' :: rest =>
      match parseChars [] rest with
      | none => none
      | some (k, rest1) =>
        match skipWs rest1 with
        | ':' :: rest2 =>
          match parseValue fuel rest2 with
          | none => none
          | some (v, rest3) =>
            match skipWs rest3 with
            | ',' :: r => parseMembers fuel r ((k, v) :: acc)
            | '}' :: r => some (JSValue.obj ((k, v) :: acc).reverse, r)
            | _ => none
        | _ => none
    | _ => none
end

/-- The platform function `JSON.parse` on a text: the JSON grammar (RFC 8259),
with `SyntaxError` on any text that is not exactly one JSON value surrounded by
whitespace. -/
def JSON_parse (text : String) : Except JSError JSValue :=
  match parseValue (2 * text.length + 2) text.toList with
  | none => Except.error JSError.SyntaxError
  | some (v, rest) =>
    match skipWs rest with
    | [] => Except.ok v
    | _ => Except.error JSError.SyntaxError

/-- The double a JSON number denotes: the decimal `m * 10 ^ e` rounded to the
nearest double. -/
def JSValue.numberValue (m e : Int) : JSNumber :=
  roundToDouble ((m : ℚ) * (10 : ℚ) ^ e)

/-- JavaScript truthiness of a parsed value (the left operand of `|| []`):
`null`, `false`, the number 0 and the empty string are falsy. -/
def JSValue.truthy : JSValue → Bool
  | JSValue.null => false
  | JSValue.bool b => b
  | JSValue.num m e => JSValue.numberValue m e != JSNumber.fin 0
  | JSValue.str s => s != ""
  | JSValue.arr _ => true
  | JSValue.obj _ => true

/-- Whether the value is an array. -/
def JSValue.isArray : JSValue → Bool
  | JSValue.arr _ => true
  | _ => false

/-- The own property `key` of a parsed object: the last member with that key
(`JSON.parse` keeps the last of duplicate keys), `none` when there is none. -/
def getOwn (key : String) : List (String × JSValue) → Option JSValue
  | [] => none
  | (k, v) :: rest =>
    match getOwn key rest with
    | some w => some w
    | none => if k == key then some v else none

mutual
/-- Whether converting a parsed value to a primitive (as `+` does) raises a
`TypeError`.  A parsed object inherits `valueOf` and `toString` from
`Object.prototype`; the inherited `valueOf` returns the object itself, so the
conversion ends in `toString`, and an own member named `toString` (never
callable, coming from JSON) leaves nothing to call.  An array is converted by
`join`, which converts every element other than `null` to a string. -/
def toPrimitiveRaises : JSValue → Bool
  | JSValue.arr xs => anyToPrimitiveRaises xs
  | JSValue.obj members => members.any (fun member => member.1 == "toString")
  | _ => false
/-- Whether the conversion raises for some element of an array. -/
def anyToPrimitiveRaises : List JSValue → Bool
  | [] => false
  | x :: xs => toPrimitiveRaises x || anyToPrimitiveRaises xs
end

/-- The callback of `reduce` on one element, `total + item.quantity` (line 82),
as far as raising goes: reading a property of `null` raises; an object yields
its own member `quantity` (else `undefined`), which `+` converts to a primitive;
every other element yields `undefined`. -/
def readQuantity : JSValue → Except JSError Unit
  | JSValue.null => Except.error JSError.TypeError
  | JSValue.obj members =>
    match getOwn "quantity" members with
    | some q => if toPrimitiveRaises q then Except.error JSError.TypeError else Except.ok ()
    | none => Except.ok ()
  | _ => Except.ok ()

/-- The callback of `reduce` applied to each element in order. -/
def reduceQuantities : List JSValue → Except JSError Unit
  | [] => Except.ok ()
  | x :: xs =>
    match readQuantity x with
    | Except.error e => Except.error e
    | Except.ok _ => reduceQuantities xs

/-- `init` on a freshly loaded `this.items` (lines 9-12, 81-89): `reduce` exists
only on arrays; calling it on anything else raises.  The result is the item
sequence the cart holds when `init` completes. -/
def initLoaded : JSValue → Except JSError (List JSValue)
  | JSValue.arr xs =>
    match reduceQuantities xs with
    | Except.error e => Except.error e
    | Except.ok _ => Except.ok xs
  | _ => Except.error JSError.TypeError

/-- The constructor (lines 3-7) on the content of the `cart` slot:
`JSON.parse(localStorage.getItem('cart')) || []`, then `init`.  `JSON.parse`
converts its argument to a string first, so a missing slot (`null`) is parsed as
the text `null`. -/
def construct (parse : String → Except JSError JSValue) (slot : Option String) :
    Except JSError (List JSValue) :=
  match parse (slot.getD "null") with
  | Except.error e => Except.error e
  | Except.ok v => initLoaded (if v.truthy then v else JSValue.arr [])

/-- A text the claim calls malformed: not valid JSON, or valid JSON for a value
that is not a sequence. -/
def Malformed (parse : String → Except JSError JSValue) (text : String) : Prop :=
  (∃ e, parse text = Except.error e) ∨ (∃ v, parse text = Except.ok v ∧ v.isArray = false)

/-! ## Facts about rounding -/

theorem log2Aux_spec (fuel n : Nat) (h1 : 1 ≤ n) (h2 : n ≤ fuel) :
    2 ^ log2Aux fuel n ≤ n ∧ n < 2 ^ (log2Aux fuel n + 1) := by
  induction fuel generalizing n with
  | zero => omega
  | succ fuel ih =>
    unfold log2Aux
    by_cases h : n < 2
    · simp only [h, if_true]
      constructor <;> omega
    · simp only [h, if_false]
      have h3 : 1 ≤ n / 2 := by omega
      have h4 : n / 2 ≤ fuel := by omega
      obtain ⟨ha, hb⟩ := ih (n / 2) h3 h4
      constructor
      · rw [pow_succ]
        omega
      · rw [pow_succ]
        omega

theorem natLog2_spec (n : Nat) (h : 1 ≤ n) :
    2 ^ natLog2 n ≤ n ∧ n < 2 ^ (natLog2 n + 1) :=
  log2Aux_spec n n h (le_refl n)

theorem ilog2_spec (x : ℚ) (hx : 0 < x) :
    (2 : ℚ) ^ ilog2 x ≤ x ∧ x < (2 : ℚ) ^ (ilog2 x + 1) := by
  have hnum : 0 < x.num := Rat.num_pos.mpr hx
  have hden : 0 < x.den := x.den_pos
  have hn1 : 1 ≤ x.num.natAbs := by omega
  obtain ⟨ha1, ha2⟩ := natLog2_spec x.num.natAbs hn1
  obtain ⟨hb1, hb2⟩ := natLog2_spec x.den hden
  set a := natLog2 x.num.natAbs with ha
  set b := natLog2 x.den with hb
  have hxeq : x = (x.num.natAbs : ℚ) / (x.den : ℚ) := by
    have h2 : (x.num.natAbs : ℚ) = (x.num : ℚ) := by
      rw [Nat.cast_natAbs, abs_of_pos hnum]
    rw [h2]
    exact (Rat.num_div_den x).symm
  have hdq : (0 : ℚ) < (x.den : ℚ) := by exact_mod_cast hden
  have ha1q : (2 : ℚ) ^ a ≤ (x.num.natAbs : ℚ) := by exact_mod_cast ha1
  have ha2q : (x.num.natAbs : ℚ) < (2 : ℚ) ^ (a + 1) := by exact_mod_cast ha2
  have hb1q : (2 : ℚ) ^ b ≤ (x.den : ℚ) := by exact_mod_cast hb1
  have hb2q : (x.den : ℚ) < (2 : ℚ) ^ (b + 1) := by exact_mod_cast hb2
  have h2pos : ∀ k : ℤ, (0 : ℚ) < (2 : ℚ) ^ k := fun k => zpow_pos (by norm_num) k
  -- upper bound: x < 2 ^ (a - b + 1)
  have hup : x < (2 : ℚ) ^ ((a : ℤ) - (b : ℤ) + 1) := by
    have e : (2 : ℚ) ^ ((a : ℤ) - (b : ℤ) + 1) = (2 : ℚ) ^ (a + 1) / (2 : ℚ) ^ b := by
      rw [show ((a : ℤ) - (b : ℤ) + 1) = ((a + 1 : ℕ) : ℤ) - ((b : ℕ) : ℤ) by push_cast; ring]
      rw [zpow_sub₀ (by norm_num : (2 : ℚ) ≠ 0), zpow_natCast, zpow_natCast]
    rw [e, hxeq, div_lt_div_iff₀ hdq (by positivity)]
    calc (x.num.natAbs : ℚ) * 2 ^ b < 2 ^ (a + 1) * 2 ^ b := by
          apply mul_lt_mul_of_pos_right ha2q (by positivity)
      _ ≤ 2 ^ (a + 1) * (x.den : ℚ) := by
          apply mul_le_mul_of_nonneg_left hb1q (by positivity)
  -- lower bound: 2 ^ (a - b - 1) < x
  have hlow : (2 : ℚ) ^ ((a : ℤ) - (b : ℤ) - 1) < x := by
    have e : (2 : ℚ) ^ ((a : ℤ) - (b : ℤ) - 1) = (2 : ℚ) ^ a / (2 : ℚ) ^ (b + 1) := by
      rw [show ((a : ℤ) - (b : ℤ) - 1) = ((a : ℕ) : ℤ) - ((b + 1 : ℕ) : ℤ) by push_cast; ring]
      rw [zpow_sub₀ (by norm_num : (2 : ℚ) ≠ 0), zpow_natCast, zpow_natCast]
    rw [e, hxeq, div_lt_div_iff₀ (by positivity) hdq]
    calc (2 : ℚ) ^ a * (x.den : ℚ) < 2 ^ a * 2 ^ (b + 1) := by
          apply mul_lt_mul_of_pos_left hb2q (by positivity)
      _ ≤ (x.num.natAbs : ℚ) * 2 ^ (b + 1) := by
          apply mul_le_mul_of_nonneg_right ha1q (by positivity)
  unfold ilog2
  simp only [← ha, ← hb]
  by_cases hc : (2 : ℚ) ^ ((a : ℤ) - (b : ℤ)) ≤ x
  · rw [if_pos hc]
    exact ⟨hc, hup⟩
  · rw [if_neg hc]
    refine ⟨hlow.le, ?_⟩
    rw [sub_add_cancel]
    exact lt_of_not_le hc


theorem roundHalfEven_intCast (n : ℤ) : roundHalfEven (n : ℚ) = n := by
  simp [roundHalfEven]

theorem le_roundHalfEven (m : ℤ) (q : ℚ) (h : (m : ℚ) ≤ q) : m ≤ roundHalfEven q := by
  have hf : m ≤ Int.floor q := Int.le_floor.mpr h
  unfold roundHalfEven
  simp only
  split_ifs <;> omega

theorem roundToDouble_ne_nan (x : ℚ) : roundToDouble x ≠ JSNumber.nan := by
  unfold roundToDouble
  simp only
  split_ifs <;> simp

theorem ilog2_nonneg (x : ℚ) (hx : 1 ≤ x) : 0 ≤ ilog2 x := by
  obtain ⟨-, h2⟩ := ilog2_spec x (by linarith)
  by_contra hneg
  have h3 : ilog2 x + 1 ≤ 0 := by omega
  have h4 : (2 : ℚ) ^ (ilog2 x + 1) ≤ (2 : ℚ) ^ (0 : ℤ) :=
    zpow_le_zpow_right₀ (by norm_num) h3
  rw [zpow_zero] at h4
  linarith

theorem ilog2_le (x : ℚ) (hx : 0 < x) (k : ℕ) (hk : x ≤ (2 : ℚ) ^ k) : ilog2 x ≤ k := by
  obtain ⟨h1, -⟩ := ilog2_spec x hx
  by_contra hgt
  have h3 : (k : ℤ) + 1 ≤ ilog2 x := by omega
  have h4 : (2 : ℚ) ^ ((k : ℤ) + 1) ≤ (2 : ℚ) ^ ilog2 x :=
    zpow_le_zpow_right₀ (by norm_num) h3
  have h5 : (2 : ℚ) ^ ((k : ℤ) + 1) = 2 ^ k * 2 := by
    rw [zpow_add₀ (by norm_num), zpow_natCast, zpow_one]
  have h6 : (0 : ℚ) < 2 ^ k := by positivity
  linarith

/-- Integers of magnitude at most 2^53 are doubles: rounding leaves them. -/
theorem roundToDouble_intCast (k : ℤ) (hk : |k| ≤ 2 ^ 53) :
    roundToDouble (k : ℚ) = JSNumber.fin (k : ℚ) := by
  by_cases hk0 : k = 0
  · subst hk0
    simp [roundToDouble]
  have hx0 : (k : ℚ) ≠ 0 := by exact_mod_cast hk0
  have ha1 : (1 : ℚ) ≤ |(k : ℚ)| := by
    have : (1 : ℤ) ≤ |k| := Int.one_le_abs hk0
    exact_mod_cast this
  have ha53 : |(k : ℚ)| ≤ (2 : ℚ) ^ (53 : ℕ) := by exact_mod_cast hk
  have he0 := ilog2_nonneg _ ha1
  have he53 := ilog2_le _ (by linarith) 53 ha53
  obtain ⟨hs1, hs2⟩ := ilog2_spec |(k : ℚ)| (by linarith)
  set e := ilog2 |(k : ℚ)| with he
  have hp : max e (-1022) - 52 = e - 52 := by
    rw [max_eq_left (by omega)]
  -- the scaled value is an integer
  have hint : ∃ N : ℤ, |(k : ℚ)| / (2 : ℚ) ^ (e - 52) = (N : ℚ) := by
    by_cases h52 : e ≤ 52
    · refine ⟨|k| * 2 ^ (52 - e).toNat, ?_⟩
      have ht : ((52 - e).toNat : ℤ) = 52 - e := Int.toNat_of_nonneg (by omega)
      have h2 : (2 : ℚ) ^ (e - 52) = ((2 : ℚ) ^ (52 - e).toNat)⁻¹ := by
        rw [← zpow_natCast, ht, ← zpow_neg]
        congr 1
        ring
      rw [h2]
      push_cast
      field_simp
    · have he' : e = 53 := by omega
      refine ⟨2 ^ 52, ?_⟩
      have h3 : |(k : ℚ)| = (2 : ℚ) ^ (53 : ℕ) := by
        apply le_antisymm ha53
        have := hs1
        rw [he'] at this
        exact_mod_cast this
      rw [he', h3]
      norm_num
  obtain ⟨N, hN⟩ := hint
  have h2pos : (0 : ℚ) < (2 : ℚ) ^ (e - 52) := zpow_pos (by norm_num) _
  have hy : ((roundHalfEven (|(k : ℚ)| / (2 : ℚ) ^ (e - 52)) : ℤ) : ℚ) * (2 : ℚ) ^ (e - 52)
      = |(k : ℚ)| := by
    rw [hN, roundHalfEven_intCast, ← hN]
    field_simp
  have hnot : ¬ ((2 : ℚ) ^ (1024 : ℤ) ≤ |(k : ℚ)|) := by
    have h1024 : (2 : ℚ) ^ (53 : ℕ) < (2 : ℚ) ^ (1024 : ℤ) := by norm_num
    intro h
    linarith
  unfold roundToDouble
  simp only [hx0, if_false, ← he, hp, hy, hnot]
  congr 1
  by_cases hneg : (k : ℚ) < 0
  · rw [if_pos hneg, abs_of_neg hneg, neg_neg]
  · rw [if_neg hneg, abs_of_nonneg (not_lt.mp hneg)]

/-- Rounding a value that is at least 1 gives a double that is at least 1, or
`Infinity`. -/
theorem roundToDouble_ge_one (x : ℚ) (hx : 1 ≤ x) :
    roundToDouble x = JSNumber.posInf ∨ ∃ y, 1 ≤ y ∧ roundToDouble x = JSNumber.fin y := by
  have hx0 : x ≠ 0 := by linarith
  have hneg : ¬ x < 0 := by linarith
  have habs : |x| = x := abs_of_nonneg (by linarith)
  have he0 := ilog2_nonneg x hx
  obtain ⟨hs1, -⟩ := ilog2_spec x (by linarith)
  set e := ilog2 x with he
  have hp : max e (-1022) - 52 = e - 52 := by
    rw [max_eq_left (by omega)]
  have h2pos : (0 : ℚ) < (2 : ℚ) ^ (e - 52) := zpow_pos (by norm_num) _
  have hsplit : (2 : ℚ) ^ e = (2 : ℚ) ^ (52 : ℕ) * (2 : ℚ) ^ (e - 52) := by
    rw [← zpow_natCast, ← zpow_add₀ (by norm_num)]
    congr 1
    push_cast
    ring
  have hz : (((2 ^ 52 : ℤ)) : ℚ) ≤ x / (2 : ℚ) ^ (e - 52) := by
    rw [le_div_iff₀ h2pos]
    have hc : (((2 ^ 52 : ℤ)) : ℚ) = (2 : ℚ) ^ (52 : ℕ) := by norm_num
    rw [hc, ← hsplit]
    exact hs1
  have hn := le_roundHalfEven _ _ hz
  have hnq : ((2 : ℚ) ^ (52 : ℕ)) ≤ ((roundHalfEven (x / (2 : ℚ) ^ (e - 52)) : ℤ) : ℚ) := by
    exact_mod_cast hn
  have hy : 1 ≤ ((roundHalfEven (x / (2 : ℚ) ^ (e - 52)) : ℤ) : ℚ) * (2 : ℚ) ^ (e - 52) := by
    have h1e : (1 : ℚ) ≤ (2 : ℚ) ^ e := one_le_zpow₀ (by norm_num) he0
    calc (1 : ℚ) ≤ (2 : ℚ) ^ e := h1e
      _ = (2 : ℚ) ^ (52 : ℕ) * (2 : ℚ) ^ (e - 52) := hsplit
      _ ≤ _ := mul_le_mul_of_nonneg_right hnq h2pos.le
  unfold roundToDouble
  simp only [hx0, if_false, habs, ← he, hp, hneg]
  split_ifs
  · exact Or.inl rfl
  · exact Or.inr ⟨_, hy, rfl⟩


/-! ## Facts about the number operations -/

theorem JSNumber.add_fin (a b : ℚ) :
    (JSNumber.fin a).add (JSNumber.fin b) = roundToDouble (a + b) := rfl

theorem JSNumber.mul_fin (a b : ℚ) :
    (JSNumber.fin a).mul (JSNumber.fin b) = roundToDouble (a * b) := rfl

/-- Addition of two integers is exact when the sum has magnitude at most 2^53. -/
theorem JSNumber.add_int (a b : ℤ) (h : |a + b| ≤ 2 ^ 53) :
    (JSNumber.fin (a : ℚ)).add (JSNumber.fin (b : ℚ)) = JSNumber.fin ((a + b : ℤ) : ℚ) := by
  rw [JSNumber.add_fin, ← Int.cast_add]
  exact roundToDouble_intCast _ h

/-- Multiplication of two integers is exact when the product has magnitude at
most 2^53. -/
theorem JSNumber.mul_int (a b : ℤ) (h : |a * b| ≤ 2 ^ 53) :
    (JSNumber.fin (a : ℚ)).mul (JSNumber.fin (b : ℚ)) = JSNumber.fin ((a * b : ℤ) : ℚ) := by
  rw [JSNumber.mul_fin, ← Int.cast_mul]
  exact roundToDouble_intCast _ h

/-- `q + 1 >= 1` whenever `q >= 1`. -/
theorem JSNumber.one_le_add_one (q : JSNumber) (h : (JSNumber.fin 1).le q = true) :
    (JSNumber.fin 1).le (q.add (JSNumber.fin 1)) = true := by
  cases q with
  | nan => simp [JSNumber.le] at h
  | posInf => simp [JSNumber.add, JSNumber.le]
  | negInf => simp [JSNumber.le] at h
  | fin x =>
    have hx : (1 : ℚ) ≤ x := by simpa [JSNumber.le] using h
    rw [JSNumber.add_fin]
    rcases roundToDouble_ge_one (x + 1) (by linarith) with h1 | ⟨y, hy, h1⟩
    · rw [h1]; simp [JSNumber.le]
    · rw [h1]; simpa [JSNumber.le] using hy

/-- `Math.max(1, n) >= 1` for every `n` other than `NaN`. -/
theorem one_le_Math_max (n : JSNumber) (hn : n ≠ JSNumber.nan) :
    (JSNumber.fin 1).le (Math_max (JSNumber.fin 1) n) = true := by
  cases n with
  | nan => exact absurd rfl hn
  | posInf => simp [Math_max, JSNumber.le]
  | negInf => simp [Math_max, JSNumber.le]
  | fin x => simp [Math_max, JSNumber.le]

/-- `Math.max(1, x)` on a finite `x` is the larger of the two, not rounded. -/
theorem Math_max_fin (x : ℚ) :
    Math_max (JSNumber.fin 1) (JSNumber.fin x) = JSNumber.fin (max 1 x) := rfl

/-! ## Basic facts about the helpers -/

theorem updateFirst_length (p : Item → Bool) (f : Item → Item) (l : List Item) :
    (updateFirst p f l).length = l.length := by
  induction l with
  | nil => rfl
  | cons x xs ih =>
    unfold updateFirst
    split <;> simp [ih]

theorem updateFirst_of_none (p : Item → Bool) (f : Item → Item) (l : List Item)
    (h : ∀ x ∈ l, p x = false) : updateFirst p f l = l := by
  induction l with
  | nil => rfl
  | cons x xs ih =>
    have hx : p x = false := h x (List.mem_cons_self _ _)
    have hxs : ∀ y ∈ xs, p y = false := fun y hy => h y (List.mem_cons_of_mem _ hy)
    simp [updateFirst, hx, ih hxs]

/-- The array around the object that `find(p)` returns: everything before it
fails `p`, and `updateFirst` rewrites exactly that object. -/
theorem updateFirst_split (p : Item → Bool) (f : Item → Item) (l : List Item)
    (h : ∃ x ∈ l, p x = true) :
    ∃ pre e post, l = pre ++ e :: post ∧ (∀ x ∈ pre, p x = false) ∧ p e = true ∧
      l.find? p = some e ∧ updateFirst p f l = pre ++ f e :: post := by
  induction l with
  | nil => simp at h
  | cons x xs ih =>
    by_cases hx : p x = true
    · exact ⟨[], x, xs, by simp, by simp, hx, by simp [List.find?, hx], by simp [updateFirst, hx]⟩
    · have hx2 : p x = false := by simpa using hx
      obtain ⟨y, hy, hpy⟩ := h
      have hy2 : y ∈ xs := by
        rcases List.mem_cons.mp hy with rfl | h2
        · exact absurd hpy hx
        · exact h2
      obtain ⟨pre, e, post, h1, h2, h3, h4, h5⟩ := ih ⟨y, hy2, hpy⟩
      refine ⟨x :: pre, e, post, by simp [h1], ?_, h3, ?_, ?_⟩
      · intro z hz
        rcases List.mem_cons.mp hz with rfl | hz2
        · exact hx2
        · exact h2 z hz2
      · simp [List.find?, hx2, h4]
      · simp [updateFirst, hx2, h5]

theorem find?_none_of_forall (p : Item → Bool) (l : List Item)
    (h : ∀ x ∈ l, p x = false) : l.find? p = none := by
  simp only [List.find?_eq_none]
  intro x hx
  simp [h x hx]

namespace Cart

@[simp] theorem saveCart_items (c : Cart) : (saveCart c).items = c.items := rfl

@[simp] theorem updateCartIcon_items (c : Cart) : (updateCartIcon c).items = c.items := by
  unfold updateCartIcon
  by_cases h : (JSNumber.fin 0).lt (cartCount c.items) = true <;> simp [h]

@[simp] theorem showNotification_items (m : String) (c : Cart) :
    (showNotification m c).items = c.items := rfl

@[simp] theorem updateCartDisplay_items (c : Cart) : (updateCartDisplay c).items = c.items := by
  unfold updateCartDisplay
  cases c.container with
  | none => rfl
  | some p => by_cases h : c.items.length = 0 <;> simp [h]

theorem addToCart_items_of_mem (now : Int) (card : ProductCard) (c : Cart)
    (h : ∃ item ∈ c.items, item.name = card.name) :
    (addToCart now card c).items
      = updateFirst (fun item => item.name == card.name)
          (fun item => { item with quantity := item.quantity.add (JSNumber.fin 1) }) c.items := by
  obtain ⟨x, hx, hn⟩ := h
  obtain ⟨pre, e, post, -, -, -, hf, -⟩ :=
    updateFirst_split (fun item => item.name == card.name) id c.items ⟨x, hx, by simp [hn]⟩
  simp [addToCart, hf]

theorem addToCart_items_of_not_mem (now : Int) (card : ProductCard) (c : Cart)
    (h : ∀ item ∈ c.items, item.name ≠ card.name) :
    (addToCart now card c).items
      = c.items ++ [{ id := now, name := card.name, price := card.price,
                      image := card.image, quantity := JSNumber.fin 1 }] := by
  have hf : c.items.find? (fun item => item.name == card.name) = none :=
    find?_none_of_forall _ _ (fun x hx => by simp [h x hx])
  simp [addToCart, hf]

@[simp] theorem removeFromCart_items (productId : Int) (c : Cart) :
    (removeFromCart productId c).items = c.items.filter (fun item => item.id != productId) := by
  simp [removeFromCart]

@[simp] theorem clearCart_items (c : Cart) : (clearCart c).items = [] := by
  simp [clearCart]

theorem updateQuantity_items (productId : Int) (newQuantity : JSNumber) (c : Cart) :
    (updateQuantity productId newQuantity c).items
      = updateFirst (fun item => item.id == productId)
          (fun item => { item with quantity := Math_max (JSNumber.fin 1) newQuantity }) c.items := by
  unfold updateQuantity
  cases hf : c.items.find? (fun item => item.id == productId) with
  | some e => simp
  | none =>
    simp only
    rw [updateFirst_of_none]
    intro x hx
    have := List.find?_eq_none.mp hf x hx
    simpa using this

end Cart

/-! ## Invariants: helper lemmas -/

theorem updateFirst_map_name (p : Item → Bool) (f : Item → Item) (l : List Item)
    (hf : ∀ x, (f x).name = x.name) :
    (updateFirst p f l).map (fun item => item.name) = l.map (fun item => item.name) := by
  induction l with
  | nil => rfl
  | cons x xs ih =>
    unfold updateFirst
    split <;> simp [hf, ih]

theorem updateFirst_map_id (p : Item → Bool) (f : Item → Item) (l : List Item)
    (hf : ∀ x, (f x).id = x.id) :
    (updateFirst p f l).map (fun item => item.id) = l.map (fun item => item.id) := by
  induction l with
  | nil => rfl
  | cons x xs ih =>
    unfold updateFirst
    split <;> simp [hf, ih]

theorem updateFirst_forall (P : Item → Prop) (p : Item → Bool) (f : Item → Item)
    (l : List Item) (hl : ∀ x ∈ l, P x) (hf : ∀ x, P x → P (f x)) :
    ∀ x ∈ updateFirst p f l, P x := by
  induction l with
  | nil => simp [updateFirst]
  | cons y ys ih =>
    have hy : P y := hl y (List.mem_cons_self _ _)
    have hys : ∀ x ∈ ys, P x := fun x hx => hl x (List.mem_cons_of_mem _ hx)
    unfold updateFirst
    split
    · intro x hx
      rcases List.mem_cons.mp hx with rfl | hx2
      · exact hf y hy
      · exact hys x hx2
    · intro x hx
      rcases List.mem_cons.mp hx with rfl | hx2
      · exact hy
      · exact ih hys x hx2

/-- The items after `addToCart`, in both cases at once. -/
theorem Cart.addToCart_items (now : Int) (card : ProductCard) (c : Cart) :
    ((∃ item ∈ c.items, item.name = card.name) ∧
      (c.addToCart now card).items
        = updateFirst (fun item => item.name == card.name)
            (fun item => { item with quantity := item.quantity.add (JSNumber.fin 1) }) c.items) ∨
    ((∀ item ∈ c.items, item.name ≠ card.name) ∧
      (c.addToCart now card).items = c.items ++ [newItem now card]) := by
  by_cases h : ∃ item ∈ c.items, item.name = card.name
  · exact Or.inl ⟨h, Cart.addToCart_items_of_mem now card c h⟩
  · right
    have h2 : ∀ item ∈ c.items, item.name ≠ card.name := by
      intro x hx hn
      exact h ⟨x, hx, hn⟩
    exact ⟨h2, Cart.addToCart_items_of_not_mem now card c h2⟩

theorem namesDistinct_step (c : Cart) (op : Op) (h : NamesDistinct c.items) :
    NamesDistinct (op.apply c).items := by
  unfold NamesDistinct at *
  cases op with
  | addToCart now card =>
    rcases Cart.addToCart_items now card c with ⟨-, h2⟩ | ⟨h1, h2⟩
    · simp only [Op.apply]
      rw [h2, updateFirst_map_name]
      · exact h
      · intro x; rfl
    · simp only [Op.apply]
      rw [h2, List.map_append, List.nodup_append]
      refine ⟨h, by simp, ?_⟩
      intro a ha hb
      simp only [List.map_cons, List.map_nil, List.mem_singleton] at hb
      obtain ⟨x, hx, rfl⟩ := List.mem_map.mp ha
      exact h1 x hx hb
  | removeFromCart id =>
    simp only [Op.apply, Cart.removeFromCart_items]
    exact h.sublist (List.Sublist.map _ (List.filter_sublist _))
  | updateQuantity id q =>
    simp only [Op.apply]
    rw [Cart.updateQuantity_items, updateFirst_map_name]
    · exact h
    · intro x; rfl
  | clearCart => simp [Op.apply]

theorem quantitiesPositive_step (c : Cart) (op : Op) (h : QuantitiesPositive c.items) :
    QuantitiesPositive (op.apply c).items := by
  unfold QuantitiesPositive at *
  cases op with
  | addToCart now card =>
    rcases Cart.addToCart_items now card c with ⟨-, h2⟩ | ⟨-, h2⟩
    · simp only [Op.apply]
      rw [h2]
      apply updateFirst_forall (fun item => (JSNumber.fin 1).le item.quantity = true) _ _ _ h
      intro x hx
      exact JSNumber.one_le_add_one x.quantity hx
    · simp only [Op.apply]
      rw [h2]
      intro x hx
      rcases List.mem_append.mp hx with h3 | h3
      · exact h x h3
      · rw [List.mem_singleton.mp h3]
        simp [newItem, JSNumber.le]
  | removeFromCart id =>
    simp only [Op.apply, Cart.removeFromCart_items]
    intro x hx
    exact h x (List.mem_of_mem_filter hx)
  | updateQuantity id q =>
    simp only [Op.apply]
    rw [Cart.updateQuantity_items]
    apply updateFirst_forall (fun item => (JSNumber.fin 1).le item.quantity = true) _ _ _ h
    intro x _
    exact one_le_Math_max _ (roundToDouble_ne_nan _)
  | clearCart => simp [Op.apply]

/-- A predicate on `this.items` that every operation preserves holds after any
sequence of operations. -/
theorem run_preserves (P : List Item → Prop)
    (hstep : ∀ (c : Cart) (op : Op), P c.items → P (op.apply c).items) :
    ∀ (ops : List Op) (c : Cart), P c.items → P (run ops c).items := by
  intro ops
  induction ops with
  | nil => intro c h; exact h
  | cons op ops ih =>
    intro c h
    exact ih (op.apply c) (hstep c op h)

theorem emptyCart_items : emptyCart.items = [] := by
  simp [emptyCart, Cart.ofItems]

/-! ## Badge and panel: helper lemmas -/

namespace Cart

theorem updateCartIcon_dataCount (c : Cart) :
    (updateCartIcon c).dataCount = badgeOf c.items := by
  unfold updateCartIcon badgeOf
  by_cases h : (JSNumber.fin 0).lt (cartCount c.items) = true <;> simp [h]

@[simp] theorem showNotification_dataCount (m : String) (c : Cart) :
    (showNotification m c).dataCount = c.dataCount := rfl

@[simp] theorem updateCartDisplay_dataCount (c : Cart) :
    (updateCartDisplay c).dataCount = c.dataCount := by
  unfold updateCartDisplay
  cases c.container with
  | none => rfl
  | some p => by_cases h : c.items.length = 0 <;> simp [h]

@[simp] theorem showNotification_container (m : String) (c : Cart) :
    (showNotification m c).container = c.container := rfl

@[simp] theorem saveCart_container (c : Cart) : (saveCart c).container = c.container := rfl

@[simp] theorem updateCartIcon_container (c : Cart) :
    (updateCartIcon c).container = c.container := by
  unfold updateCartIcon
  by_cases h : (JSNumber.fin 0).lt (cartCount c.items) = true <;> simp [h]

theorem updateCartDisplay_fresh (c : Cart) : PanelFresh (updateCartDisplay c) := by
  intro p hp
  rw [updateCartDisplay_items]
  unfold updateCartDisplay at hp
  cases hc : c.container with
  | none => simp [hc] at hp
  | some q =>
    by_cases h : c.items.length = 0
    · simp [hc, h] at hp
      subst hp
      simp [renderPanel, h]
    · simp [hc, h] at hp
      subst hp
      simp [renderPanel, h]

theorem badgeFresh_ofItems (items : List Item) : BadgeFresh (ofItems items) := by
  unfold BadgeFresh ofItems
  rw [updateCartIcon_dataCount, updateCartIcon_items]

theorem badgeFresh_addToCart (now : Int) (card : ProductCard) (c : Cart) :
    BadgeFresh (c.addToCart now card) := by
  unfold BadgeFresh addToCart
  simp only [showNotification_dataCount, showNotification_items, updateCartIcon_dataCount,
    updateCartIcon_items]

theorem badgeFresh_removeFromCart (id : Int) (c : Cart) :
    BadgeFresh (c.removeFromCart id) := by
  unfold BadgeFresh removeFromCart
  simp only [showNotification_dataCount, showNotification_items, updateCartDisplay_dataCount,
    updateCartDisplay_items, updateCartIcon_dataCount, updateCartIcon_items]

theorem badgeFresh_clearCart (c : Cart) : BadgeFresh c.clearCart := by
  unfold BadgeFresh clearCart
  simp only [showNotification_dataCount, showNotification_items, updateCartDisplay_dataCount,
    updateCartDisplay_items, updateCartIcon_dataCount, updateCartIcon_items]

theorem badgeFresh_updateQuantity (id : Int) (q : JSNumber) (c : Cart)
    (h : ∃ item ∈ c.items, item.id = id) : BadgeFresh (c.updateQuantity id q) := by
  obtain ⟨x, hx, hn⟩ := h
  obtain ⟨pre, e, post, -, -, -, hf, -⟩ :=
    updateFirst_split (fun item => item.id == id) (fun item => item) c.items
      ⟨x, hx, by simp [hn]⟩
  unfold BadgeFresh updateQuantity
  simp only [hf, updateCartDisplay_dataCount, updateCartDisplay_items,
    updateCartIcon_dataCount, updateCartIcon_items]

theorem panelFresh_removeFromCart (id : Int) (c : Cart) :
    PanelFresh (c.removeFromCart id) := by
  intro p hp
  have := updateCartDisplay_fresh
    (updateCartIcon (saveCart { c with items := c.items.filter (fun item => item.id != id) }))
  exact this p hp

theorem panelFresh_clearCart (c : Cart) : PanelFresh c.clearCart := by
  intro p hp
  have := updateCartDisplay_fresh (updateCartIcon (saveCart { c with items := [] }))
  exact this p hp

theorem panelFresh_updateQuantity (id : Int) (q : JSNumber) (c : Cart)
    (h : ∃ item ∈ c.items, item.id = id) : PanelFresh (c.updateQuantity id q) := by
  obtain ⟨x, hx, hn⟩ := h
  obtain ⟨pre, e, post, -, -, -, hf, -⟩ :=
    updateFirst_split (fun item => item.id == id) (fun item => item) c.items
      ⟨x, hx, by simp [hn]⟩
  unfold updateQuantity
  simp only [hf]
  exact updateCartDisplay_fresh _

theorem panelFresh_toggleCart (c : Cart) : PanelFresh c.toggleCart :=
  updateCartDisplay_fresh _

end Cart

theorem badgeFresh_step (c : Cart) (op : Op) (h : BadgeFresh c) : BadgeFresh (op.apply c) := by
  cases op with
  | addToCart now card => exact Cart.badgeFresh_addToCart now card c
  | removeFromCart id => exact Cart.badgeFresh_removeFromCart id c
  | updateQuantity id q =>
    by_cases hex : ∃ item ∈ c.items, item.id = id
    · exact Cart.badgeFresh_updateQuantity id (JSNumber.ofInt q) c hex
    · have hno : ∀ item ∈ c.items, item.id ≠ id := fun x hx hn => hex ⟨x, hx, hn⟩
      have hf : c.items.find? (fun item => item.id == id) = none :=
        find?_none_of_forall _ _ (fun x hx => by simpa using hno x hx)
      simpa [Op.apply, Cart.updateQuantity, hf] using h
  | clearCart => exact Cart.badgeFresh_clearCart c

theorem badgeFresh_run (ops : List Op) (c : Cart) (h : BadgeFresh c) :
    BadgeFresh (run ops c) := by
  induction ops generalizing c with
  | nil => exact h
  | cons op ops ih => exact ih (op.apply c) (badgeFresh_step c op h)

/-- A run of adds whose names are pairwise distinct and absent from the cart
appends one new line item per add, in call order. -/
theorem run_adds_items (adds : List (Int × ProductCard)) (c : Cart)
    (hnodup : (adds.map (fun a => a.2.name)).Nodup)
    (hfresh : ∀ a ∈ adds, ∀ item ∈ c.items, item.name ≠ a.2.name) :
    (run (adds.map (fun a => Op.addToCart a.1 a.2)) c).items
      = c.items ++ adds.map (fun a => newItem a.1 a.2) := by
  induction adds generalizing c with
  | nil => simp [run]
  | cons a rest ih =>
    have hstep : (c.addToCart a.1 a.2).items = c.items ++ [newItem a.1 a.2] :=
      Cart.addToCart_items_of_not_mem a.1 a.2 c (hfresh a (List.mem_cons_self _ _))
    have hn : a.2.name ∉ rest.map (fun a => a.2.name) ∧
        (rest.map (fun a => a.2.name)).Nodup := by
      rw [List.map_cons] at hnodup
      exact List.nodup_cons.mp hnodup
    have h2 := ih (c.addToCart a.1 a.2) hn.2 (by
      intro b hb item hitem
      rw [hstep] at hitem
      rcases List.mem_append.mp hitem with h3 | h3
      · exact hfresh b (List.mem_cons_of_mem _ hb) item h3
      · rw [List.mem_singleton.mp h3]
        intro heq
        apply hn.1
        have heq2 : a.2.name = b.2.name := heq
        rw [heq2]
        exact List.mem_map.mpr ⟨b, hb, rfl⟩)
    have hrun : run ((a :: rest).map (fun a => Op.addToCart a.1 a.2)) c
        = run (rest.map (fun a => Op.addToCart a.1 a.2)) (c.addToCart a.1 a.2) := rfl
    rw [hrun, h2, hstep]
    simp

/-- The badge count of line items that all have quantity 1 is their number, as
long as it stays within 2^53. -/
theorem cartCount_foldl_ones (items : List Item) (k : ℕ)
    (hq : ∀ item ∈ items, item.quantity = JSNumber.fin 1)
    (hk : k + items.length ≤ 2 ^ 53) :
    items.foldl (fun total item => total.add item.quantity) (JSNumber.fin (k : ℚ))
      = JSNumber.fin ((k + items.length : ℕ) : ℚ) := by
  induction items generalizing k with
  | nil => simp
  | cons x xs ih =>
    have hx : x.quantity = JSNumber.fin 1 := hq x (List.mem_cons_self _ _)
    have hxs : ∀ item ∈ xs, item.quantity = JSNumber.fin 1 :=
      fun y hy => hq y (List.mem_cons_of_mem _ hy)
    have hlen : (x :: xs).length = xs.length + 1 := rfl
    rw [hlen] at hk
    have hstep : (JSNumber.fin (k : ℚ)).add x.quantity = JSNumber.fin ((k + 1 : ℕ) : ℚ) := by
      rw [hx]
      have h := JSNumber.add_int (k : ℤ) 1 (by
        rw [abs_of_nonneg (by positivity)]
        have : (k : ℤ) + 1 ≤ 2 ^ 53 := by
          have h2 : k + 1 ≤ 2 ^ 53 := by omega
          exact_mod_cast h2
        exact this)
      simpa using h
    rw [List.foldl_cons, hstep, ih (k + 1) hxs (by omega)]
    congr 2
    rw [hlen]
    omega

theorem cartCount_map_newItem (adds : List (Int × ProductCard))
    (hlen : adds.length ≤ 2 ^ 53) :
    cartCount (adds.map (fun a => newItem a.1 a.2)) = JSNumber.fin (adds.length : ℚ) := by
  have h := cartCount_foldl_ones (adds.map (fun a => newItem a.1 a.2)) 0
    (by
      intro item hitem
      obtain ⟨a, -, rfl⟩ := List.mem_map.mp hitem
      rfl)
    (by simpa using hlen)
  simpa [cartCount] using h

/-- The fold of `calculateTotal` is exact on whole prices and quantities while
the magnitudes stay within 2^53. -/
theorem calculateTotal_foldl_int (p q : Item → ℤ) (items : List Item) (acc : ℤ)
    (hpq : ∀ item ∈ items,
      item.price = JSNumber.fin (p item) ∧ item.quantity = JSNumber.fin (q item))
    (hbound : |acc| + (items.map (fun item => |p item * q item|)).sum ≤ 2 ^ 53) :
    items.foldl (fun total item => total.add (item.price.mul item.quantity))
        (JSNumber.fin (acc : ℚ))
      = JSNumber.fin ((acc + (items.map (fun item => p item * q item)).sum : ℤ) : ℚ) := by
  induction items generalizing acc with
  | nil => simp
  | cons x xs ih =>
    obtain ⟨hp, hq⟩ := hpq x (List.mem_cons_self _ _)
    have hxs : ∀ item ∈ xs,
        item.price = JSNumber.fin (p item) ∧ item.quantity = JSNumber.fin (q item) :=
      fun y hy => hpq y (List.mem_cons_of_mem _ hy)
    simp only [List.map_cons, List.sum_cons] at hbound ⊢
    have hrest : 0 ≤ (xs.map (fun item => |p item * q item|)).sum :=
      List.sum_nonneg (by
        intro z hz
        obtain ⟨y, -, rfl⟩ := List.mem_map.mp hz
        exact abs_nonneg _)
    have hacc : 0 ≤ |acc| := abs_nonneg _
    have hmul : (JSNumber.fin (p x : ℚ)).mul (JSNumber.fin (q x : ℚ))
        = JSNumber.fin ((p x * q x : ℤ) : ℚ) :=
      JSNumber.mul_int _ _ (by linarith)
    have hadd : (JSNumber.fin (acc : ℚ)).add (JSNumber.fin ((p x * q x : ℤ) : ℚ))
        = JSNumber.fin ((acc + p x * q x : ℤ) : ℚ) :=
      JSNumber.add_int _ _ (by
        have := abs_add acc (p x * q x)
        linarith)
    rw [List.foldl_cons, hp, hq, hmul, hadd, ih (acc + p x * q x) hxs (by
      have := abs_add acc (p x * q x)
      linarith)]
    congr 2
    ring

/-! ## Adding, removing and updating line items -/

/-- C1 fails on the code: `quantity += 1` (line 41) is double addition.  After
`updateQuantity(1, 9007199254740992)` the item has quantity 2^53, and a further
add of the same name leaves it at 2^53 instead of 2^53 + 1. -/
theorem addToCart_saturates :
    (run [Op.addToCart 1 runnerCard, Op.updateQuantity 1 9007199254740992] emptyCart).items
      = [{ newItem 1 runnerCard with quantity := JSNumber.fin 9007199254740992 }] ∧
    (run [Op.addToCart 1 runnerCard, Op.updateQuantity 1 9007199254740992,
          Op.addToCart 2 runnerCard] emptyCart).items
      = [{ newItem 1 runnerCard with quantity := JSNumber.fin 9007199254740992 }] ∧
    (run [Op.addToCart 1 runnerCard, Op.updateQuantity 1 9007199254740992,
          Op.addToCart 2 runnerCard] emptyCart).items
      ≠ [{ newItem 1 runnerCard with quantity := JSNumber.fin (9007199254740992 + 1) }] := by
  decide!

/-- C1 as amended: `addToCart` merges on the name.  If some line item already
has the card's name, the array splits around the first such item `e` as
`pre ++ e :: post` and the result is the same array with `e.quantity + 1`
(double addition) in `e` and nothing else changed, so the number of line items
is unchanged; the new quantity is exactly one more when the old one is an
integer `k` with `-2^53 ≤ k < 2^53`.  Otherwise the result is the old array
followed by one new line item with the card's name, price and image and
quantity 1.  Two adds of the same name to the empty cart leave exactly one line
item, with quantity 2. -/
theorem addToCart_merges_or_appends (now : Int) (card : ProductCard) (c : Cart) :
    ((∃ item ∈ c.items, item.name = card.name) →
      (c.addToCart now card).items.length = c.items.length ∧
      ∃ pre e post, c.items = pre ++ e :: post ∧ (∀ x ∈ pre, x.name ≠ card.name) ∧
        e.name = card.name ∧
        (c.addToCart now card).items
          = pre ++ { e with quantity := e.quantity.add (JSNumber.fin 1) } :: post ∧
        (∀ k : ℤ, e.quantity = JSNumber.fin (k : ℚ) → -2 ^ 53 ≤ k → k < 2 ^ 53 →
          (c.addToCart now card).items
            = pre ++ { e with quantity := JSNumber.fin ((k + 1 : ℤ) : ℚ) } :: post)) ∧
    ((∀ item ∈ c.items, item.name ≠ card.name) →
      (c.addToCart now card).items
        = c.items ++ [{ id := now, name := card.name, price := card.price,
                        image := card.image, quantity := JSNumber.fin 1 }]) ∧
    (∀ (later : Int) (again : ProductCard), again.name = card.name →
      ((emptyCart.addToCart now card).addToCart later again).items
        = [{ id := now, name := card.name, price := card.price,
             image := card.image, quantity := JSNumber.fin 2 }]) := by
  refine ⟨?_, ?_, ?_⟩
  · intro h
    rw [Cart.addToCart_items_of_mem now card c h]
    refine ⟨updateFirst_length _ _ _, ?_⟩
    obtain ⟨x, hx, hn⟩ := h
    obtain ⟨pre, e, post, h1, h2, h3, -, h5⟩ :=
      updateFirst_split (fun item => item.name == card.name)
        (fun item => { item with quantity := item.quantity.add (JSNumber.fin 1) }) c.items
        ⟨x, hx, by simp [hn]⟩
    refine ⟨pre, e, post, h1, ?_, by simpa using h3, h5, ?_⟩
    · intro y hy
      simpa using h2 y hy
    · intro k hk hlo hhi
      rw [h5, hk]
      have hadd := JSNumber.add_int k 1 (by
        rw [abs_le]
        constructor <;> omega)
      have hadd2 : (JSNumber.fin (k : ℚ)).add (JSNumber.fin 1)
          = JSNumber.fin ((k + 1 : ℤ) : ℚ) := by
        simpa using hadd
      rw [hadd2]
  · exact Cart.addToCart_items_of_not_mem now card c
  · intro later again hname
    have h1 : (emptyCart.addToCart now card).items
        = [{ id := now, name := card.name, price := card.price,
             image := card.image, quantity := JSNumber.fin 1 }] := by
      rw [Cart.addToCart_items_of_not_mem] <;> simp [emptyCart, Cart.ofItems]
    rw [Cart.addToCart_items_of_mem later again _ (by simp [h1, hname]), h1]
    have hadd := JSNumber.add_int 1 1 (by norm_num)
    have hadd2 : (JSNumber.fin 1).add (JSNumber.fin 1) = JSNumber.fin 2 := by
      have h2 : ((1 + 1 : ℤ) : ℚ) = 2 := by norm_num
      rw [← h2]
      simpa using hadd
    simp [updateFirst, hname, hadd2]

/-- C1 as amended, at a concrete cart: a second "Runner" is merged into the
first line item, a "Boot" is appended. -/
theorem addToCart_merges_or_appends_witness :
    (Cart.addToCart 7 runnerCard (Cart.ofItems [newItem 1 runnerCard])).items.length = 1 ∧
    (Cart.addToCart 7 bootCard (Cart.ofItems [newItem 1 runnerCard])).items
      = [newItem 1 runnerCard, newItem 7 bootCard] :=
  ⟨((addToCart_merges_or_appends 7 runnerCard (Cart.ofItems [newItem 1 runnerCard])).1
      ⟨newItem 1 runnerCard, by simp [Cart.ofItems], rfl⟩).1.trans
        (by simp [Cart.ofItems]),
   ((addToCart_merges_or_appends 7 bootCard (Cart.ofItems [newItem 1 runnerCard])).2.1
      (by simp [Cart.ofItems, newItem, runnerCard, bootCard])).trans
        (by simp [Cart.ofItems, newItem])⟩

/-- C3 fails on the code when two line items carry the same identifier.  The
cart reached by adding "Runner" and "Boot" at clock reading 5 and "Boot" again
at reading 6 holds Runner (id 5, quantity 1) and Boot (id 5, quantity 2);
`updateQuantity(5, 0)` leaves Boot, a line item with identifier 5, at quantity
2. -/
theorem updateQuantity_misses_second_item :
    (run [Op.addToCart 5 runnerCard, Op.addToCart 5 bootCard, Op.addToCart 6 bootCard]
        emptyCart).items
      = [newItem 5 runnerCard, { newItem 5 bootCard with quantity := JSNumber.fin 2 }] ∧
    (Cart.updateQuantity 5 (JSNumber.fin 0)
        (run [Op.addToCart 5 runnerCard, Op.addToCart 5 bootCard, Op.addToCart 6 bootCard]
          emptyCart)).items
      = [newItem 5 runnerCard, { newItem 5 bootCard with quantity := JSNumber.fin 2 }] ∧
    ¬ (∀ (c : Cart) (id : Int) (n : ℤ),
        ∀ item ∈ (c.updateQuantity id (JSNumber.fin (n : ℚ))).items,
          item.id = id → item.quantity = JSNumber.fin ((max 1 n : ℤ) : ℚ)) := by
  have h1 : (run [Op.addToCart 5 runnerCard, Op.addToCart 5 bootCard, Op.addToCart 6 bootCard]
        emptyCart).items
      = [newItem 5 runnerCard, { newItem 5 bootCard with quantity := JSNumber.fin 2 }] := by
    decide!
  have h2 : (Cart.updateQuantity 5 (JSNumber.fin 0)
        (run [Op.addToCart 5 runnerCard, Op.addToCart 5 bootCard, Op.addToCart 6 bootCard]
          emptyCart)).items
      = [newItem 5 runnerCard, { newItem 5 bootCard with quantity := JSNumber.fin 2 }] := by
    decide!
  refine ⟨h1, h2, ?_⟩
  intro hall
  have h3 := hall
    (run [Op.addToCart 5 runnerCard, Op.addToCart 5 bootCard, Op.addToCart 6 bootCard]
      emptyCart) 5 0
    { newItem 5 bootCard with quantity := JSNumber.fin 2 }
    (by
      have h2' := h2
      simp only [Int.cast_zero]
      rw [h2']
      simp)
    rfl
  revert h3
  decide!

/-- C3 as amended: `updateQuantity` clamps the first line item found under the
identifier and never removes.  When the cart holds a line item with identifier
`id`, the array splits around the first such item `e` as `pre ++ e :: post`, and
after `updateQuantity(id, x)` with a finite number `x` (every integer is one) the
array is the same with `e.quantity` replaced by `max 1 x`: the number of line
items is unchanged, `e` is still found under `id`, and its quantity is exactly 1
whenever `x ≤ 0`.  When the identifiers of the cart are pairwise distinct, every
line item with identifier `id` has quantity `max 1 x` afterwards. -/
theorem updateQuantity_clamps (id : Int) (x : ℚ) (c : Cart)
    (h : ∃ item ∈ c.items, item.id = id) :
    (c.updateQuantity id (JSNumber.fin x)).items.length = c.items.length ∧
    ∃ pre e post, c.items = pre ++ e :: post ∧ (∀ y ∈ pre, y.id ≠ id) ∧ e.id = id ∧
      (c.updateQuantity id (JSNumber.fin x)).items
        = pre ++ { e with quantity := JSNumber.fin (max 1 x) } :: post ∧
      (c.updateQuantity id (JSNumber.fin x)).items.find? (fun item => item.id == id)
        = some { e with quantity := JSNumber.fin (max 1 x) } ∧
      (x ≤ 0 → (c.updateQuantity id (JSNumber.fin x)).items
        = pre ++ { e with quantity := JSNumber.fin 1 } :: post) ∧
      (IdsDistinct c.items →
        ∀ item ∈ (c.updateQuantity id (JSNumber.fin x)).items,
          item.id = id → item.quantity = JSNumber.fin (max 1 x)) := by
  rw [Cart.updateQuantity_items]
  refine ⟨updateFirst_length _ _ _, ?_⟩
  obtain ⟨y, hy, hn⟩ := h
  obtain ⟨pre, e, post, h1, h2, h3, -, h5⟩ :=
    updateFirst_split (fun item => item.id == id)
      (fun item => { item with quantity := Math_max (JSNumber.fin 1) (JSNumber.fin x) })
      c.items ⟨y, hy, by simp [hn]⟩
  simp only [Math_max_fin] at h5 ⊢
  have h3e : e.id = id := by simpa using h3
  have hpre : ∀ z ∈ pre, z.id ≠ id := by
    intro z hz
    simpa using h2 z hz
  refine ⟨pre, e, post, h1, hpre, h3e, h5, ?_, ?_, ?_⟩
  · rw [h5, List.find?_append]
    have hnone : List.find? (fun item => item.id == id) pre = none :=
      find?_none_of_forall _ _ h2
    simp [hnone, List.find?, h3e]
  · intro hx0
    rw [h5, max_eq_left (by linarith)]
  · intro hdist item hitem hid
    rw [h5] at hitem
    unfold IdsDistinct at hdist
    rw [h1, List.map_append, List.map_cons, List.nodup_append] at hdist
    obtain ⟨-, hmid, -⟩ := hdist
    have hpost : e.id ∉ post.map (fun item => item.id) := (List.nodup_cons.mp hmid).1
    rcases List.mem_append.mp hitem with hin | hin
    · exact absurd hid (hpre item hin)
    · rcases List.mem_cons.mp hin with heq | hin2
      · rw [heq]
      · exfalso
        apply hpost
        rw [h3e, ← hid]
        exact List.mem_map.mpr ⟨item, hin2, rfl⟩

/-- C3 as amended, at the two requests the specification names:
`updateQuantity(1, 0)` and `updateQuantity(1, -5)` on a cart holding item 1
with quantity 3. -/
theorem updateQuantity_clamps_witness :
    (Cart.updateQuantity 1 (JSNumber.fin 0)
        (Cart.ofItems [{ newItem 1 runnerCard with quantity := JSNumber.fin 3 }])).items.length
      = 1 ∧
    (Cart.updateQuantity 1 (JSNumber.fin (-5))
        (Cart.ofItems [{ newItem 1 runnerCard with quantity := JSNumber.fin 3 }])).items.length
      = 1 :=
  ⟨(updateQuantity_clamps 1 0 _
      ⟨{ newItem 1 runnerCard with quantity := JSNumber.fin 3 },
        by simp [Cart.ofItems], rfl⟩).1.trans (by simp [Cart.ofItems]),
   (updateQuantity_clamps 1 (-5) _
      ⟨{ newItem 1 runnerCard with quantity := JSNumber.fin 3 },
        by simp [Cart.ofItems], rfl⟩).1.trans (by simp [Cart.ofItems])⟩

/-- C5 fails on the code: `calculateTotal` multiplies and adds doubles.  For one
line item whose price is the double nearest to 0.1 and whose quantity is 3 it
returns 1351079888211149 / 2^52 (printed 0.30000000000000004), which is not
the sum of price times quantity, 10808639105689191 / 2^55. -/
theorem calculateTotal_rounds :
    roundToDouble (1 / 10) = JSNumber.fin (3602879701896397 / 36028797018963968) ∧
    calculateTotal
        [{ id := 1, name := "Runner",
           price := JSNumber.fin (3602879701896397 / 36028797018963968),
           image := "r.png", quantity := JSNumber.fin 3 }]
      = JSNumber.fin (1351079888211149 / 4503599627370496) ∧
    calculateTotal
        [{ id := 1, name := "Runner",
           price := JSNumber.fin (3602879701896397 / 36028797018963968),
           image := "r.png", quantity := JSNumber.fin 3 }]
      ≠ JSNumber.fin ((3602879701896397 / 36028797018963968) * 3) := by
  decide!

/-- C5 as amended: `calculateTotal` adds the products price times quantity from
left to right, starting from 0, each product and each partial sum rounded to the
nearest double.  It is 0 for the empty cart; it is the exact sum of price times
quantity when prices and quantities are integers and the magnitudes of the
products add up to at most 2^53; and it is 25.5 for the items
`[{price: 10, quantity: 2}, {price: 5.5, quantity: 1}]`. -/
theorem calculateTotal_double_sum :
    calculateTotal [] = JSNumber.fin 0 ∧
    (∀ (items : List Item) (item : Item),
      calculateTotal (items ++ [item])
        = (calculateTotal items).add (item.price.mul item.quantity)) ∧
    (∀ (p q : Item → ℤ) (items : List Item),
      (∀ item ∈ items,
        item.price = JSNumber.fin (p item) ∧ item.quantity = JSNumber.fin (q item)) →
      (items.map (fun item => |p item * q item|)).sum ≤ 2 ^ 53 →
      calculateTotal items
        = JSNumber.fin (((items.map (fun item => p item * q item)).sum : ℤ) : ℚ)) ∧
    (∀ (id1 id2 : Int) (name1 name2 image1 image2 : String),
      calculateTotal
        [{ id := id1, name := name1, price := JSNumber.fin 10, image := image1,
           quantity := JSNumber.fin 2 },
         { id := id2, name := name2, price := JSNumber.fin 5.5, image := image2,
           quantity := JSNumber.fin 1 }]
        = JSNumber.fin 25.5) := by
  refine ⟨rfl, ?_, ?_, ?_⟩
  · intro items item
    simp [calculateTotal, List.foldl_append]
  · intro p q items hpq hbound
    have h := calculateTotal_foldl_int p q items 0 hpq (by simpa using hbound)
    simpa [calculateTotal] using h
  · intro id1 id2 name1 name2 image1 image2
    show ((JSNumber.fin 0).add ((JSNumber.fin 10).mul (JSNumber.fin 2))).add
        ((JSNumber.fin 5.5).mul (JSNumber.fin 1)) = JSNumber.fin 25.5
    decide!

/-- C5 as amended, at whole prices: two pairs at 10 and one at 5 total 25. -/
theorem calculateTotal_double_sum_witness :
    calculateTotal
        [{ id := 1, name := "Runner", price := JSNumber.fin ((10 : ℤ) : ℚ), image := "r.png",
           quantity := JSNumber.fin ((2 : ℤ) : ℚ) },
         { id := 2, name := "Boot", price := JSNumber.fin ((5 : ℤ) : ℚ), image := "b.png",
           quantity := JSNumber.fin ((1 : ℤ) : ℚ) }]
      = JSNumber.fin ((25 : ℤ) : ℚ) :=
  calculateTotal_double_sum.2.2.1
    (fun item => if item.id = 1 then 10 else 5)
    (fun item => if item.id = 1 then 2 else 1)
    [{ id := 1, name := "Runner", price := JSNumber.fin ((10 : ℤ) : ℚ), image := "r.png",
       quantity := JSNumber.fin ((2 : ℤ) : ℚ) },
     { id := 2, name := "Boot", price := JSNumber.fin ((5 : ℤ) : ℚ), image := "b.png",
       quantity := JSNumber.fin ((1 : ℤ) : ℚ) }]
    (by decide) (by decide)

/-- A price that is `NaN` (a price text `parseFloat` could not read) makes the
total `NaN`. -/
theorem calculateTotal_nan_price (items : List Item)
    (h : ∃ item ∈ items, item.price = JSNumber.nan) :
    calculateTotal items = JSNumber.nan := by
  have hnan : ∀ l : List Item,
      l.foldl (fun total item => total.add (item.price.mul item.quantity)) JSNumber.nan
        = JSNumber.nan := by
    intro l
    induction l with
    | nil => rfl
    | cons x xs ih => simpa [List.foldl_cons, JSNumber.add] using ih
  have hgen : ∀ (l : List Item) (acc : JSNumber), (∃ item ∈ l, item.price = JSNumber.nan) →
      l.foldl (fun total item => total.add (item.price.mul item.quantity)) acc
        = JSNumber.nan := by
    intro l
    induction l with
    | nil => intro acc hex; simp at hex
    | cons x xs ih =>
      intro acc hex
      obtain ⟨y, hy, hp⟩ := hex
      rw [List.foldl_cons]
      rcases List.mem_cons.mp hy with rfl | hy2
      · have hmul : y.price.mul y.quantity = JSNumber.nan := by
          rw [hp]
          cases y.quantity <;> rfl
        have hadd : acc.add JSNumber.nan = JSNumber.nan := by
          cases acc <;> rfl
        rw [hmul, hadd]
        exact hnan xs
      · exact ih _ ⟨y, hy2, hp⟩
  exact hgen items _ h

/-- At a concrete cart: one readable price and one `NaN` price. -/
theorem calculateTotal_nan_price_witness :
    calculateTotal
        [newItem 1 runnerCard,
         newItem 2 { name := "Boot", price := JSNumber.nan, image := "b.png" }]
      = JSNumber.nan :=
  calculateTotal_nan_price _
    ⟨newItem 2 { name := "Boot", price := JSNumber.nan, image := "b.png" },
      by simp, rfl⟩

/-- C8: operations on an identifier no line item carries change nothing in
`this.items`.  `removeFromCart` keeps every item, in order;
`updateQuantity` returns the whole state untouched. -/
theorem absent_id_is_noop (id : Int) (q : JSNumber) (c : Cart)
    (h : ∀ item ∈ c.items, item.id ≠ id) :
    (c.removeFromCart id).items = c.items ∧ c.updateQuantity id q = c := by
  constructor
  · rw [Cart.removeFromCart_items, List.filter_eq_self]
    intro x hx
    simpa using h x hx
  · have hf : c.items.find? (fun item => item.id == id) = none :=
      find?_none_of_forall _ _ (fun x hx => by simpa using h x hx)
    simp [Cart.updateQuantity, hf]

/-- C8, at a concrete cart: identifier 9 is not in the cart. -/
theorem absent_id_is_noop_witness :
    (Cart.removeFromCart 9 (Cart.ofItems [newItem 1 runnerCard])).items
      = (Cart.ofItems [newItem 1 runnerCard]).items ∧
    Cart.updateQuantity 9 (JSNumber.fin 4) (Cart.ofItems [newItem 1 runnerCard])
      = Cart.ofItems [newItem 1 runnerCard] :=
  absent_id_is_noop 9 (JSNumber.fin 4) (Cart.ofItems [newItem 1 runnerCard])
    (by simp [Cart.ofItems, newItem])

/-! ## Invariants of the reachable carts -/

/-- C2: names are pairwise distinct in every cart reachable from the empty cart
by `addToCart`, `removeFromCart`, `updateQuantity` and `clearCart`, and each of
these operations preserves that predicate from any cart. -/
theorem names_distinct_invariant :
    (∀ ops : List Op, NamesDistinct (run ops emptyCart).items) ∧
    (∀ (c : Cart) (op : Op), NamesDistinct c.items → NamesDistinct (op.apply c).items) := by
  refine ⟨?_, namesDistinct_step⟩
  intro ops
  apply run_preserves NamesDistinct namesDistinct_step
  simp [NamesDistinct, emptyCart_items]

/-- C2, at a concrete cart: an add of a name already present keeps the names
distinct. -/
theorem names_distinct_invariant_witness :
    NamesDistinct
      ((Op.addToCart 7 runnerCard).apply (Cart.ofItems [newItem 1 runnerCard])).items :=
  names_distinct_invariant.2 _ _ (by simp [NamesDistinct, Cart.ofItems])

/-- C4: every line item has quantity at least 1 in every cart reachable from
the empty cart by `addToCart`, `removeFromCart`, `updateQuantity` (with any
integer argument) and `clearCart`, and each of these operations preserves that
predicate from any cart. -/
theorem quantities_positive_invariant :
    (∀ ops : List Op, QuantitiesPositive (run ops emptyCart).items) ∧
    (∀ (c : Cart) (op : Op),
      QuantitiesPositive c.items → QuantitiesPositive (op.apply c).items) := by
  refine ⟨?_, quantitiesPositive_step⟩
  intro ops
  apply run_preserves QuantitiesPositive quantitiesPositive_step
  simp [QuantitiesPositive, emptyCart_items]

/-- C4, at a concrete cart: `updateQuantity(1, -5)` leaves every quantity at
least 1. -/
theorem quantities_positive_invariant_witness :
    QuantitiesPositive
      ((Op.updateQuantity 1 (-5)).apply
        (Cart.ofItems [{ newItem 1 runnerCard with quantity := JSNumber.fin 3 }])).items :=
  quantities_positive_invariant.2 _ _
    (by simp [QuantitiesPositive, Cart.ofItems, JSNumber.le])

/-- C7: `n` adds with pairwise distinct names on the empty cart leave `n` line
items, one per call and in call order, each with quantity 1; the sum of
quantities computed for the badge is `n`, and the icon shows it (no badge when
`n = 0`).  The count is a double: it is `n` for every `n` up to 2^53, which
covers every array the engine can hold (fewer than 2^32 elements). -/
theorem distinct_adds_count (adds : List (Int × ProductCard))
    (h : (adds.map (fun a => a.2.name)).Nodup) :
    (run (adds.map (fun a => Op.addToCart a.1 a.2)) emptyCart).items
      = adds.map (fun a => newItem a.1 a.2) ∧
    (run (adds.map (fun a => Op.addToCart a.1 a.2)) emptyCart).items.length = adds.length ∧
    (∀ item ∈ (run (adds.map (fun a => Op.addToCart a.1 a.2)) emptyCart).items,
      item.quantity = JSNumber.fin 1) ∧
    (adds.length ≤ 2 ^ 53 →
      cartCount (run (adds.map (fun a => Op.addToCart a.1 a.2)) emptyCart).items
        = JSNumber.fin (adds.length : ℚ) ∧
      (run (adds.map (fun a => Op.addToCart a.1 a.2)) emptyCart).dataCount
        = (if adds.length > 0 then some (JSNumber.fin (adds.length : ℚ)) else none)) := by
  have hitems : (run (adds.map (fun a => Op.addToCart a.1 a.2)) emptyCart).items
      = adds.map (fun a => newItem a.1 a.2) := by
    rw [run_adds_items adds emptyCart h (by simp [emptyCart_items]), emptyCart_items]
    simp
  have hbadge := badgeFresh_run (adds.map (fun a => Op.addToCart a.1 a.2)) emptyCart
    (Cart.badgeFresh_ofItems [])
  refine ⟨hitems, by simp [hitems], ?_, ?_⟩
  · intro item hitem
    rw [hitems] at hitem
    obtain ⟨a, -, rfl⟩ := List.mem_map.mp hitem
    rfl
  · intro hlen
    refine ⟨by rw [hitems, cartCount_map_newItem adds hlen], ?_⟩
    rw [hbadge, hitems, badgeOf, cartCount_map_newItem adds hlen]
    by_cases hpos : adds.length > 0
    · simp [JSNumber.lt, hpos]
    · simp [JSNumber.lt, hpos]

/-- C7, at three adds of three different names. -/
theorem distinct_adds_count_witness :
    cartCount
      (run ([((1 : Int), runnerCard), (2, bootCard),
             (3, ({ name := "Sandal", price := JSNumber.fin 20, image := "s.png" } :
                    ProductCard))].map
          (fun a => Op.addToCart a.1 a.2)) emptyCart).items
      = JSNumber.fin 3 :=
  ((distinct_adds_count
    [(1, runnerCard), (2, bootCard),
     (3, { name := "Sandal", price := JSNumber.fin 20, image := "s.png" })]
    (by decide)).2.2.2 (by norm_num)).1.trans (by norm_num)

/-! ## Identifiers -/

theorem ids_sublist_step (c : Cart) (op : Op) (seen : List Int)
    (h : (c.items.map (fun item => item.id)).Sublist seen) :
    ((op.apply c).items.map (fun item => item.id)).Sublist (seen ++ addReadings [op]) := by
  cases op with
  | addToCart now card =>
    rcases Cart.addToCart_items now card c with ⟨-, h2⟩ | ⟨-, h2⟩
    · simp only [Op.apply]
      rw [h2, updateFirst_map_id]
      · exact h.trans (List.sublist_append_left _ _)
      · intro x; rfl
    · simp only [Op.apply]
      rw [h2, List.map_append]
      exact List.Sublist.append h (List.Sublist.refl _)
  | removeFromCart id =>
    simp only [Op.apply, Cart.removeFromCart_items, addReadings, List.append_nil]
    exact (List.Sublist.map _ (List.filter_sublist _)).trans h
  | updateQuantity id q =>
    simp only [Op.apply, addReadings, List.append_nil]
    rw [Cart.updateQuantity_items, updateFirst_map_id]
    · exact h
    · intro x; rfl
  | clearCart => simp [Op.apply]

theorem addReadings_cons (op : Op) (ops : List Op) :
    addReadings (op :: ops) = addReadings [op] ++ addReadings ops := by
  cases op <;> simp [addReadings]

theorem ids_sublist_run (ops : List Op) (c : Cart) (seen : List Int)
    (h : (c.items.map (fun item => item.id)).Sublist seen) :
    ((run ops c).items.map (fun item => item.id)).Sublist (seen ++ addReadings ops) := by
  induction ops generalizing c seen with
  | nil => simpa [run, addReadings] using h
  | cons op ops ih =>
    have h2 := ih (op.apply c) (seen ++ addReadings [op]) (ids_sublist_step c op seen h)
    rw [addReadings_cons, ← List.append_assoc]
    exact h2

/-- When the clock readings of the adds are strictly increasing, the ids of a
cart reached from the empty cart are pairwise distinct. -/
theorem ids_distinct_of_increasing_clock (ops : List Op)
    (h : (addReadings ops).Pairwise (fun a b => a < b)) :
    IdsDistinct (run ops emptyCart).items := by
  have hsub := ids_sublist_run ops emptyCart [] (by simp [emptyCart_items])
  rw [List.nil_append] at hsub
  have hp := h.sublist hsub
  exact hp.imp (fun hab => ne_of_lt hab)

/-- At strictly increasing readings 5 and 6 the two ids differ. -/
theorem ids_distinct_of_increasing_clock_witness :
    IdsDistinct (run [Op.addToCart 5 runnerCard, Op.addToCart 6 bootCard] emptyCart).items :=
  ids_distinct_of_increasing_clock [Op.addToCart 5 runnerCard, Op.addToCart 6 bootCard]
    (by simp [addReadings])

/-- C9 fails on the code: two adds of different names at the same clock reading
(5 and 5, a non-decreasing sequence) give two line items with the same id, and
`removeFromCart(5)` then drops both of them. -/
theorem same_reading_ids_collide :
    (addReadings [Op.addToCart 5 runnerCard, Op.addToCart 5 bootCard]).Pairwise
        (fun a b => a ≤ b) ∧
    (run [Op.addToCart 5 runnerCard, Op.addToCart 5 bootCard] emptyCart).items
      = [newItem 5 runnerCard, newItem 5 bootCard] ∧
    ¬ IdsDistinct (run [Op.addToCart 5 runnerCard, Op.addToCart 5 bootCard] emptyCart).items ∧
    ((run [Op.addToCart 5 runnerCard, Op.addToCart 5 bootCard] emptyCart).removeFromCart
        5).items = [] := by
  have hitems : (run [Op.addToCart 5 runnerCard, Op.addToCart 5 bootCard] emptyCart).items
      = [newItem 5 runnerCard, newItem 5 bootCard] := by
    have := run_adds_items [(5, runnerCard), (5, bootCard)] emptyCart
      (by simp [runnerCard, bootCard]) (by simp [emptyCart_items])
    simpa [emptyCart_items] using this
  refine ⟨by simp [addReadings], hitems, ?_, ?_⟩
  · rw [hitems]
    simp [IdsDistinct, newItem]
  · rw [Cart.removeFromCart_items, hitems]
    simp [newItem]

/-! ## Refreshing the badge and the panel -/

/-- The methods that call `updateCartDisplay` leave the panel, when it exists,
showing the rendering of the new items, and every mutating method leaves the
badge derived from the new items. -/
theorem refresh_after_remove_clear_update (c : Cart) :
    (∀ now card, BadgeFresh (c.addToCart now card)) ∧
    (∀ id, BadgeFresh (c.removeFromCart id) ∧ PanelFresh (c.removeFromCart id)) ∧
    (BadgeFresh c.clearCart ∧ PanelFresh c.clearCart) ∧
    (∀ id q, (∃ item ∈ c.items, item.id = id) →
      BadgeFresh (c.updateQuantity id q) ∧ PanelFresh (c.updateQuantity id q)) :=
  ⟨fun now card => Cart.badgeFresh_addToCart now card c,
   fun id => ⟨Cart.badgeFresh_removeFromCart id c, Cart.panelFresh_removeFromCart id c⟩,
   ⟨Cart.badgeFresh_clearCart c, Cart.panelFresh_clearCart c⟩,
   fun id q h => ⟨Cart.badgeFresh_updateQuantity id q c h,
     Cart.panelFresh_updateQuantity id q c h⟩⟩

/-- C10 fails on the code for `addToCart`: once the panel exists (the cart icon
was clicked on the empty cart), adding a product refreshes the badge but not the
panel, which still shows the empty-cart message and the total "0.00" while the
rendering of the new items is one row. -/
theorem addToCart_leaves_panel_stale :
    (emptyCart.toggleCart.addToCart 7 runnerCard).items = [newItem 7 runnerCard] ∧
    (emptyCart.toggleCart.addToCart 7 runnerCard).dataCount = some (JSNumber.fin 1) ∧
    (emptyCart.toggleCart.addToCart 7 runnerCard).container
      = some { active := true, body := PanelBody.emptyMessage,
               totalText := TotalText.literal "0.00" } ∧
    (renderPanel (emptyCart.toggleCart.addToCart 7 runnerCard).items).1
      = PanelBody.rows [renderRow (newItem 7 runnerCard)] ∧
    ¬ PanelFresh (emptyCart.toggleCart.addToCart 7 runnerCard) := by
  have hitems : (emptyCart.toggleCart.addToCart 7 runnerCard).items
      = [newItem 7 runnerCard] := by
    rw [Cart.addToCart_items_of_not_mem] <;>
      simp [Cart.toggleCart, emptyCart_items, newItem]
  have hcont : (emptyCart.toggleCart.addToCart 7 runnerCard).container
      = some { active := true, body := PanelBody.emptyMessage,
               totalText := TotalText.literal "0.00" } := by
    simp [Cart.addToCart, Cart.toggleCart, Cart.updateCartDisplay, emptyCart, Cart.ofItems,
      Cart.createCartContainer]
  have hbadge := Cart.badgeFresh_addToCart 7 runnerCard emptyCart.toggleCart
  refine ⟨hitems, ?_, hcont, ?_, ?_⟩
  · rw [hbadge, hitems]
    decide!
  · rw [hitems]
    simp [renderPanel]
  · intro hfresh
    have := hfresh _ hcont
    rw [hitems] at this
    simp [renderPanel] at this

/-! ## Loading the persisted cart -/

/-- C6 fails on the code: for the slot text `{`, which is not valid JSON, the
constructor does not complete with the empty sequence (it raises the
`SyntaxError` of `JSON.parse`). -/
theorem load_raises_on_malformed_text :
    ¬ (∀ slot : Option String,
        (slot = none ∨ ∃ t, slot = some t ∧ Malformed JSON_parse t) →
        construct JSON_parse slot = Except.ok []) := by
  intro h
  have h1 := h (some "\x7b") (Or.inr ⟨"\x7b", rfl, Or.inl ⟨JSError.SyntaxError, rfl⟩⟩)
  have h2 : construct JSON_parse (some "\x7b") = Except.error JSError.SyntaxError := rfl
  rw [h2] at h1
  cases h1

/-- C6 as amended: constructing the cart completes with the empty sequence when
the slot is missing or holds the JSON text of a falsy value; when `JSON.parse`
raises on the slot text the constructor raises the same error; when the text is
valid JSON for a truthy value that is not an array, `init` raises a
`TypeError`. -/
theorem load_outcomes (parse : String → Except JSError JSValue)
    (hnull : parse "null" = Except.ok JSValue.null) :
    construct parse none = Except.ok [] ∧
    (∀ t e, parse t = Except.error e → construct parse (some t) = Except.error e) ∧
    (∀ t v, parse t = Except.ok v → v.truthy = false →
      construct parse (some t) = Except.ok []) ∧
    (∀ t v, parse t = Except.ok v → v.truthy = true → v.isArray = false →
      construct parse (some t) = Except.error JSError.TypeError) := by
  refine ⟨?_, ?_, ?_, ?_⟩
  · simp [construct, hnull, JSValue.truthy, initLoaded, reduceQuantities]
  · intro t e h
    simp [construct, h]
  · intro t v h hv
    simp [construct, h, hv, initLoaded, reduceQuantities]
  · intro t v h hv ha
    cases v <;> simp_all [construct, initLoaded, JSValue.isArray]

/-- C6 as amended, on the JSON grammar: a missing slot loads the empty cart,
the text `{` raises `SyntaxError`, the text `{}` raises `TypeError`. -/
theorem load_outcomes_witness :
    JSON_parse "null" = Except.ok JSValue.null ∧
    construct JSON_parse none = Except.ok [] ∧
    construct JSON_parse (some "\x7b") = Except.error JSError.SyntaxError ∧
    construct JSON_parse (some "\x7b\x7d") = Except.error JSError.TypeError :=
  ⟨rfl, (load_outcomes JSON_parse rfl).1,
   (load_outcomes JSON_parse rfl).2.1 "\x7b" JSError.SyntaxError rfl,
   (load_outcomes JSON_parse rfl).2.2.2 "\x7b\x7d" (JSValue.obj []) rfl rfl rfl⟩

/-- A number that underflows to 0 is falsy: the slot text `1e-400` loads the
empty cart. -/
theorem load_underflowing_number :
    construct JSON_parse (some "1e-400") = Except.ok [] := by
  have hp : JSON_parse "1e-400" = Except.ok (JSValue.num 1 (-400)) := rfl
  have ht : (JSValue.num 1 (-400)).truthy = false := by decide!
  simp [construct, hp, ht, initLoaded, reduceQuantities]

/-- A member `quantity` that cannot be converted to a primitive makes `init`
raise: the slot text `[{"quantity":{"toString":1}}]` raises `TypeError`. -/
theorem load_unconvertible_quantity :
    construct JSON_parse (some "[\x7b\"quantity\":\x7b\"toString\":1\x7d\x7d]")
      = Except.error JSError.TypeError := by
  rfl


end WalkWise
